import Mathlib

/-!
ArogyaLink chat relay: a shallow embedding

The development embeds the real-time chat relay of the backend
(`src/backend/server.js`, `src/backend/routes/chat.js`,
`src/backend/models/ChatMessage.js`), the sign-up and sign-in routes
(`src/backend/routes/auth.js`) and the unread count of the clients, and proves
properties of them.

Modelling conventions.

* User ids, socket ids and message bodies are JavaScript strings.  They are
  represented by Lean strings; wherever the source compares strings
  (`Array.prototype.sort` without a comparator) the comparison is made on the
  UTF-16 code units, as ECMAScript prescribes.
* A value read from an event payload may be missing (`undefined`); such a field
  is an `Option String`.  A field is *falsy* when it is missing or empty.
* MongoDB is a list of documents in insertion order.  Redis is modelled by its
  three key families `socket:<userId>`, `user:<socketId>` and
  `messages:<userId>`; their prefixes are pairwise different, so each family is
  a map of its own.
* Every awaited call of a handler may reject.  The outcome of each call is an
  input of the handler (`SendEnv`), and the handler follows the control flow of
  the source, `try`/`catch` included.
-/

namespace ArogyaLink

/-! ## JavaScript strings -/

/-- UTF-16 code units of one character. -/
def utf16 (c : Char) : List Nat :=
  if c.toNat < 0x10000 then [c.toNat]
  else [0xD800 + (c.toNat - 0x10000) / 0x400, 0xDC00 + (c.toNat - 0x10000) % 0x400]

/-- UTF-16 code units of a string: the sequence a JavaScript string consists of. -/
def toUTF16 (s : String) : List Nat := s.data.flatMap utf16

/-- Lexicographic comparison of code-unit sequences; a proper prefix is smaller. -/
def ltUnits : List Nat → List Nat → Bool
  | [], [] => false
  | [], _ :: _ => true
  | _ :: _, [] => false
  | x :: xs, y :: ys => if x < y then true else if y < x then false else ltUnits xs ys

/-- The ECMAScript `<` on strings. -/
def jsLt (a b : String) : Bool := ltUnits (toUTF16 a) (toUTF16 b)

/-- The order `Array.prototype.sort()` places `x` before `y` in: `SortCompare(x, y) ≤ 0`,
that is, `y` is not smaller than `x`. -/
def sortLe (x y : String) : Prop := jsLt y x = false

instance : DecidableRel sortLe := fun x y => inferInstanceAs (Decidable (jsLt y x = false))

/-- Model of `Array.prototype.sort()` on strings, without comparator: a stable sort by
code units. -/
def jsSort (xs : List String) : List String := List.insertionSort sortLe xs

/-- Model of `Array.prototype.join(sep)` on strings. -/
def jsJoin (sep : String) (xs : List String) : String := String.intercalate sep xs

/-- The chat room id, `[a, b].sort().join('_')`, as computed at `server.js:121`,
`routes/chat.js:75` and `routes/chat.js:101`. -/
def chatRoomId (a b : String) : String := jsJoin "_" (jsSort [a, b])

/-- A JavaScript truthiness test on an optional string: `undefined` and `''` are falsy. -/
def truthy : Option String → Bool
  | none => false
  | some s => s != ""

/-! ## Data model -/

/-- A document of the `ChatMessage` collection (`models/ChatMessage.js`).  The ids are
kept as the strings the handlers receive; `timestamp` is `Date.now()` in milliseconds.
`createdAt` and `updatedAt` are the two fields the schema option `timestamps: true` adds:
both are set when the document is saved, and `updatedAt` is set again by every update that
matches the document. -/
structure ChatMessage where
  senderId : String
  receiverId : String
  message : String
  timestamp : Nat
  read : Bool
  chatRoomId : String
  createdAt : Nat
  updatedAt : Nat
deriving DecidableEq, Repr

/-- The projection `name profilePhoto` of a `User` document, as produced by
`populate('senderId', 'name profilePhoto')`. -/
structure UserRef where
  id : String
  name : String
  profilePhoto : String
deriving DecidableEq, Repr

/-- The in-memory document after `chatMessage.populate('senderId', ...)`: the saved
document, with the `senderId` path replaced by the user found (`none` is `null`, no such
user).  This is the value the handler emits and serialises. -/
structure PopulatedMessage where
  doc : ChatMessage
  sender : Option UserRef
deriving DecidableEq, Repr

/-- A Redis string key: its value and its time to live in seconds (`none`: no expiry). -/
structure StrEntry where
  value : String
  ttl : Option Nat
deriving DecidableEq, Repr

/-- A Redis list key: its elements, head first, and its time to live in seconds. -/
structure ListEntry where
  items : List String
  ttl : Option Nat
deriving DecidableEq, Repr

/-- One family of Redis keys, as an association list from the variable part of the key. -/
abbrev KV (α : Type) := List (String × α)

/-- Removing a key. -/
def kvDel {α : Type} (m : KV α) (k : String) : KV α := m.filter (fun p => p.1 != k)

/-- Writing a key, replacing what it held. -/
def kvSet {α : Type} (m : KV α) (k : String) (v : α) : KV α := (k, v) :: kvDel m k

/-- The state the relay works on: the `ChatMessage` collection in insertion order and the
three Redis key families. -/
structure State where
  messages : List ChatMessage
  socketOf : KV StrEntry
  userOf : KV StrEntry
  buffers : KV ListEntry
deriving DecidableEq, Repr

/-- Model of `redisClient.get(key)` on a string key: the value, or `none` for `null`. -/
def redisGet (m : KV StrEntry) (k : String) : Option String := (m.lookup k).map (·.value)

/-- Model of `redisClient.set(key, value)`: the value is replaced and any expiry dropped. -/
def redisSet (m : KV StrEntry) (k v : String) : KV StrEntry := kvSet m k ⟨v, none⟩

/-- Model of `redisClient.lpush(key, value)`: the value becomes the head of the list; a
missing key is created without expiry, an existing one keeps its expiry. -/
def redisLpush (m : KV ListEntry) (k v : String) : KV ListEntry :=
  match m.lookup k with
  | none => kvSet m k ⟨[v], none⟩
  | some e => kvSet m k ⟨v :: e.items, e.ttl⟩

/-- Model of `redisClient.expire(key, seconds)`: sets the time to live of an existing key. -/
def redisExpire (m : KV ListEntry) (k : String) (seconds : Nat) : KV ListEntry :=
  match m.lookup k with
  | none => m
  | some e => kvSet m k ⟨e.items, some seconds⟩

/-- The events the server emits (`server.js`).  The fields of `user_typing` are passed on
from the payload as they came, so they may be missing. -/
inductive Event where
  | error (message : String)
  | receive_message (message : PopulatedMessage) (senderId : String)
  | message_sent (message : PopulatedMessage)
  | user_typing (senderId : Option String) (isTyping : Option Bool)
deriving DecidableEq, Repr

/-- One emission: the socket id it is addressed to and the event.  `socket.emit` addresses
the socket the handler runs for; `io.to(id).emit` addresses the room `id`, which holds the
socket of that id. -/
structure Emit where
  target : String
  event : Event
deriving DecidableEq, Repr

/-- The payload of a `send_message` event, destructured as `{ senderId, receiverId,
message }`; a missing field is `none`. -/
structure SendData where
  senderId : Option String
  receiverId : Option String
  message : Option String
deriving DecidableEq, Repr

/-- What the surroundings decide about one run of the `send_message` handler: the clock and
the outcome of each awaited call (`true`: it resolves, `false`: it rejects). -/
structure SendEnv where
  /-- The value of `Date.now()` when the document is constructed. -/
  now : Nat
  /-- The time at which `save()` stamps `createdAt` and `updatedAt`. -/
  savedAt : Nat
  /-- Outcome of `chatMessage.save()`; a rejection covers validation and cast errors and a database
  that cannot be reached. -/
  save : Bool
  /-- Outcome of `chatMessage.populate(...)`: `none` rejects, `some u` resolves with the user found. -/
  populate : Option (Option UserRef)
  /-- Outcome of `redisClient.get(...)`. -/
  get : Bool
  /-- Outcome of `redisClient.lpush(...)`. -/
  lpush : Bool
  /-- Outcome of `redisClient.expire(...)`. -/
  expire : Bool
deriving DecidableEq, Repr

/-! ## The send_message handler (`server.js:111-159`) -/

/-- The emission of the validation branch, `server.js:116`. -/
def missingFields (socketId : String) : Emit := ⟨socketId, .error "Missing required fields"⟩

/-- The emission of the `catch` branch, `server.js:157`. -/
def sendFailed (socketId : String) : Emit := ⟨socketId, .error "Failed to send message"⟩

/-- The document built at `server.js:124-129`, as `save()` stores it: `timestamp` and
`read` take the schema defaults at construction (`now`), `createdAt` and `updatedAt` are
stamped when it is saved (`savedAt`). -/
def newChatMessage (now savedAt : Nat) (senderId receiverId message : String) : ChatMessage :=
  { senderId := senderId, receiverId := receiverId, message := message,
    timestamp := now, read := false, chatRoomId := chatRoomId senderId receiverId,
    createdAt := savedAt, updatedAt := savedAt }

/-- The `send_message` handler for the socket `socketId`.  `stringify` stands for
`JSON.stringify` on the populated document.  The result is the state after the handler and
the emissions in the order they are made.  State written before a rejection stays written:
the `catch` branch only emits. -/
def send_message (stringify : PopulatedMessage → String) (env : SendEnv) (socketId : String)
    (data : SendData) (st : State) : State × List Emit :=
  if !truthy data.senderId || !truthy data.receiverId || !truthy data.message then
    (st, [missingFields socketId])
  else
    let senderId := data.senderId.getD ""
    let receiverId := data.receiverId.getD ""
    let chatMessage := newChatMessage env.now env.savedAt senderId receiverId (data.message.getD "")
    -- await chatMessage.save()
    if !env.save then (st, [sendFailed socketId])
    else
      let st1 := { st with messages := st.messages ++ [chatMessage] }
      -- await chatMessage.populate('senderId', 'name profilePhoto')
      match env.populate with
      | none => (st1, [sendFailed socketId])
      | some sender =>
        let populated : PopulatedMessage := ⟨chatMessage, sender⟩
        -- await redisClient.get(`socket:${receiverId}`)
        if !env.get then (st1, [sendFailed socketId])
        else
          let receiverSocketId := redisGet st1.socketOf receiverId
          let push : List Emit :=
            if truthy receiverSocketId then
              [⟨receiverSocketId.getD "", .receive_message populated senderId⟩]
            else []
          let ack : List Emit := [⟨socketId, .message_sent populated⟩]
          -- await redisClient.lpush(`messages:${receiverId}`, JSON.stringify(chatMessage))
          if !env.lpush then (st1, push ++ ack ++ [sendFailed socketId])
          else
            let st2 := { st1 with
              buffers := redisLpush st1.buffers receiverId (stringify populated) }
            -- await redisClient.expire(`messages:${receiverId}`, 86400)
            if !env.expire then (st2, push ++ ack ++ [sendFailed socketId])
            else
              ({ st2 with buffers := redisExpire st2.buffers receiverId 86400 }, push ++ ack)

/-- The `send_message` listener on any payload.  A payload that is `undefined` or `null`
(`none`) makes the destructuring at `server.js:113` throw inside the `try` block, so the
`catch` branch runs; an object payload is handled by `send_message`. -/
def on_send_message (stringify : PopulatedMessage → String) (env : SendEnv) (socketId : String)
    (payload : Option SendData) (st : State) : State × List Emit :=
  match payload with
  | none => (st, [sendFailed socketId])
  | some data => send_message stringify env socketId data st

/-! ## The join, typing and disconnect handlers (`server.js:98-108`, `161-184`) -/

/-- How an `async` listener without `try`/`catch` ends: its promise resolves, or an awaited
call rejects (or the destructuring throws) and the rejection leaves the listener
unhandled. -/
inductive Completion where
  | resolved
  | rejected
deriving DecidableEq, Repr

/-- The text a template literal puts for a value: a missing value reads `undefined`. -/
def templateOf (v : Option String) : String := v.getD "undefined"

/-- The outcome of the two awaited `redisClient.set` calls of the `join` listener. -/
structure JoinEnv where
  setSocket : Bool
  setUser : Bool
deriving DecidableEq, Repr

/-- The `join` listener of the socket `socketId` (`server.js:98-108`).  A truthy `userId`
is recorded under `socket:<userId>` and then `socketId` under `user:<socketId>`, by two
plain `set` calls.  The Socket.IO room `user_<userId>` the socket also joins is not part of
the state: nothing is ever emitted to it. -/
def join (env : JoinEnv) (socketId : String) (userId : Option String) (st : State) :
    State × Completion :=
  if truthy userId then
    -- await redisClient.set(`socket:${userId}`, socket.id)
    if !env.setSocket then (st, .rejected)
    else
      let st1 := { st with socketOf := redisSet st.socketOf (templateOf userId) socketId }
      -- await redisClient.set(`user:${socket.id}`, userId)
      if !env.setUser then (st1, .rejected)
      else ({ st1 with userOf := redisSet st1.userOf socketId (templateOf userId) }, .resolved)
  else (st, .resolved)

/-- The payload of a `typing` event, destructured as `{ senderId, receiverId, isTyping }`. -/
structure TypingData where
  senderId : Option String
  receiverId : Option String
  isTyping : Option Bool
deriving DecidableEq, Repr

/-- The `typing` listener (`server.js:162-172`); `getOk` tells whether `redisClient.get`
resolves.  A missing payload makes the destructuring throw. -/
def typing (getOk : Bool) (payload : Option TypingData) (st : State) :
    State × List Emit × Completion :=
  match payload with
  | none => (st, [], .rejected)
  | some data =>
    -- await redisClient.get(`socket:${receiverId}`)
    if !getOk then (st, [], .rejected)
    else
      let receiverSocketId := redisGet st.socketOf (templateOf data.receiverId)
      if truthy receiverSocketId then
        (st, [⟨receiverSocketId.getD "", .user_typing data.senderId data.isTyping⟩], .resolved)
      else (st, [], .resolved)

/-- The outcome of the awaited calls of the `disconnect` listener. -/
structure DisconnectEnv where
  get : Bool
  delSocket : Bool
  delUser : Bool
deriving DecidableEq, Repr

/-- The `disconnect` listener of the socket `socketId` (`server.js:175-184`): the user
recorded under `user:<socketId>` is read and, when there is one, `socket:<userId>` and
`user:<socketId>` are deleted. -/
def disconnect (env : DisconnectEnv) (socketId : String) (st : State) : State × Completion :=
  -- await redisClient.get(`user:${socket.id}`)
  if !env.get then (st, .rejected)
  else
    let userId := redisGet st.userOf socketId
    if truthy userId then
      -- await redisClient.del(`socket:${userId}`)
      if !env.delSocket then (st, .rejected)
      else
        let st1 := { st with socketOf := kvDel st.socketOf (templateOf userId) }
        -- await redisClient.del(`user:${socket.id}`)
        if !env.delUser then (st1, .rejected)
        else ({ st1 with userOf := kvDel st1.userOf socketId }, .resolved)
    else (st, .resolved)

/-! ## The chat routes (`routes/chat.js`) -/

/-- The query of `GET /messages/:userId1/:userId2` (`routes/chat.js:75-81`):
`find({ chatRoomId }).sort({ timestamp: 1 }).limit(100)`.  Documents of equal timestamp
keep their insertion order. -/
def findMessages (st : State) (userId1 userId2 : String) : List ChatMessage :=
  ((st.messages.filter (fun m => m.chatRoomId == chatRoomId userId1 userId2)).insertionSort
    (fun a b => a.timestamp ≤ b.timestamp)).take 100

/-- The answer of a route: the status and, on success, the messages returned. -/
structure Response where
  status : Nat
  messages : Option (List ChatMessage)
deriving DecidableEq, Repr

/-- The route `GET /messages/:userId1/:userId2` (`routes/chat.js:70-95`); `dbOk` tells
whether the query resolves. -/
def getMessages (dbOk : Bool) (st : State) (userId1 userId2 : String) : Response :=
  if dbOk then ⟨200, some (findMessages st userId1 userId2)⟩ else ⟨500, none⟩

/-- The update of `PUT /messages/read/:userId1/:userId2` (`routes/chat.js:101-110`):
`updateMany({ chatRoomId, receiverId: userId1, read: false }, { read: true })`, run at the
time `now`.  The schema has `timestamps: true`, so the update also sets `updatedAt` of
every document it matches. -/
def markRead (now : Nat) (st : State) (userId1 userId2 : String) : State :=
  { st with messages := st.messages.map (fun m =>
      if m.chatRoomId == chatRoomId userId1 userId2 && m.receiverId == userId1
          && m.read == false then
        { m with read := true, updatedAt := now }
      else m) }

/-- The route `PUT /messages/read/:userId1/:userId2` (`routes/chat.js:98-124`): the state
after it and the status answered; `dbOk` tells whether the update resolves, `now` is the
time of the update. -/
def putMessagesRead (dbOk : Bool) (now : Nat) (st : State) (userId1 userId2 : String) :
    State × Nat :=
  if dbOk then (markRead now st userId1 userId2, 200) else (st, 500)

/-! ## Specification-side definitions -/

/-- The smaller of two ids in the code-unit order. -/
def jsMin (a b : String) : String := if jsLt b a then b else a

/-- The larger of two ids in the code-unit order. -/
def jsMax (a b : String) : String := if jsLt b a then a else b

/-- The conversation id in the words of the specification: the two ids sorted
lexicographically, the smaller one first, joined with an underscore. -/
def conversationIdSpec (a b : String) : String := jsMin a b ++ "_" ++ jsMax a b

/-- Whether an emission is a `receive_message` push. -/
def Emit.isReceive (e : Emit) : Bool :=
  match e.event with
  | .receive_message _ _ => true
  | _ => false

/-- Whether an emission is a `message_sent` addressed to the socket `socketId`. -/
def Emit.isAckTo (socketId : String) (e : Emit) : Bool :=
  match e.event with
  | .message_sent _ => e.target == socketId
  | _ => false

/-- Whether an emission is an `error` addressed to the socket `socketId`. -/
def Emit.isErrorTo (socketId : String) (e : Emit) : Bool :=
  match e.event with
  | .error _ => e.target == socketId
  | _ => false

/-- The items a list key holds; a missing key holds none. -/
def bufferItems (m : KV ListEntry) (k : String) : List String :=
  ((m.lookup k).map (·.items)).getD []

/-- The time to live of a list key, when the key exists and has one. -/
def bufferTtl (m : KV ListEntry) (k : String) : Option Nat :=
  (m.lookup k).bind (·.ttl)

/-! ## Concrete inputs -/

/-- Two user ids of the shape MongoDB assigns. -/
def userA : String := "507f1f77bcf86cd799439011"

/-- The second user id. -/
def userB : String := "507f1f77bcf86cd799439012"

/-- A third user id. -/
def userC : String := "507f1f77bcf86cd799439013"

/-- A run in which every awaited call resolves; the sender is not found by `populate`. -/
def envOk : SendEnv := ⟨1000, 1001, true, some none, true, true, true⟩

/-- The empty state. -/
def emptyState : State := ⟨[], [], [], []⟩

/-- A state in which `userB` is bound to the socket `sockB`. -/
def boundState : State := ⟨[], [(userB, ⟨"sockB", none⟩)], [("sockB", ⟨userB, none⟩)], []⟩

/-- A state whose conversation between `userA` and `userB` holds 100 messages, sent by
`userB` at the times 0, 1, ..., 99. -/
def fullConversation : State :=
  ⟨(List.range 100).map (fun i => newChatMessage i i userB userA "m"), [], [], []⟩

/-- A stand-in for `JSON.stringify` in concrete runs: the body of the message. -/
def bodyOf (p : PopulatedMessage) : String := p.doc.message

/-- The payload of the concrete runs: `userA` sends `hello` to `userB`. -/
def helloData : SendData := ⟨some userA, some userB, some "hello"⟩

/-- A run in which the presence lookup rejects after the save resolved. -/
def envGetFails : SendEnv := ⟨1000, 1001, true, some none, false, true, true⟩

/-- A run in which the buffer write rejects after the acknowledgement was emitted. -/
def envLpushFails : SendEnv := ⟨1000, 1001, true, some none, true, false, true⟩

/-- The number of `message_sent` events the socket `socketId` is sent. -/
def ackCount (socketId : String) (out : List Emit) : Nat :=
  (out.filter (Emit.isAckTo socketId)).length

/-- The number of `error` events the socket `socketId` is sent. -/
def errorCount (socketId : String) (out : List Emit) : Nat :=
  (out.filter (Emit.isErrorTo socketId)).length

/-- The time to live of a string key, when the key exists and has one. -/
def strTtl (m : KV StrEntry) (k : String) : Option Nat :=
  (m.lookup k).bind (·.ttl)

/-- Whether an emission is a `user_typing` push. -/
def Emit.isTyping (e : Emit) : Bool :=
  match e.event with
  | .user_typing _ _ => true
  | _ => false

/-- A run of `join` in which both writes resolve. -/
def joinOk : JoinEnv := ⟨true, true⟩

/-- A run of `disconnect` in which every call resolves. -/
def disconnectOk : DisconnectEnv := ⟨true, true, true⟩

/-- A state whose conversation between `userA` and `userB` holds 101 messages, sent by
`userB` at the times 0, 1, ..., 100. -/
def overfullConversation : State :=
  ⟨(List.range 101).map (fun i => newChatMessage i i userB userA "m"), [], [], []⟩

/-- A state holding one unread message from `userB` to `userA`, one from `userA` to
`userB`, and one from `userC` to `userA`. -/
def mixedState : State :=
  ⟨[newChatMessage 1 1 userB userA "to A", newChatMessage 2 2 userA userB "to B",
    newChatMessage 3 3 userC userA "other"], [], [], []⟩

/-! ## Operations and runs -/

/-- One operation of the relay or of the chat routes, with what the surroundings decide
about it. -/
inductive Op where
  | join (env : JoinEnv) (socketId : String) (userId : Option String)
  | send_message (stringify : PopulatedMessage → String) (env : SendEnv) (socketId : String)
      (payload : Option SendData)
  | typing (getOk : Bool) (payload : Option TypingData)
  | disconnect (env : DisconnectEnv) (socketId : String)
  | getMessages (dbOk : Bool) (userId1 userId2 : String)
  | putMessagesRead (dbOk : Bool) (now : Nat) (userId1 userId2 : String)

/-- The state after one operation.  The fetch route only reads. -/
def step (op : Op) (st : State) : State :=
  match op with
  | .join env socketId userId => (join env socketId userId st).1
  | .send_message f env socketId payload => (on_send_message f env socketId payload st).1
  | .typing getOk payload => (typing getOk payload st).1
  | .disconnect env socketId => (disconnect env socketId st).1
  | .getMessages _ _ _ => st
  | .putMessagesRead dbOk now userId1 userId2 =>
    (putMessagesRead dbOk now st userId1 userId2).1

/-- The state after a sequence of operations, the first one first. -/
def run (ops : List Op) (st : State) : State := ops.foldl (fun acc op => step op acc) st

/-- Whether an operation is a call of the mark-read route. -/
def Op.isMarkRead : Op → Bool
  | .putMessagesRead _ _ _ _ => true
  | _ => false

/-- The relation between a stored message and the same message later on: every field but
`read` is the same, and `read` does not go back from true to false. -/
def KeptAs (m m' : ChatMessage) : Prop :=
  m'.senderId = m.senderId ∧ m'.receiverId = m.receiverId ∧ m'.message = m.message
    ∧ m'.timestamp = m.timestamp ∧ m'.chatRoomId = m.chatRoomId
    ∧ (m.read = true → m'.read = true)

/-- The append-only relation between two contents of the collection: every message of the
earlier content is found at the same position of the later content, kept as `KeptAs`
says. -/
def AppendOnly (old new : List ChatMessage) : Prop :=
  ∀ (i : Nat) (m : ChatMessage), old[i]? = some m → ∃ m', new[i]? = some m' ∧ KeptAs m m'

/-- A presence event whose Redis calls all resolve: a join of a socket under a user id, or
the disconnect of a socket. -/
inductive PresenceEvent where
  | join (socketId : String) (userId : Option String)
  | disconnect (socketId : String)
deriving DecidableEq, Repr

/-- The state after one presence event. -/
def applyPresence (e : PresenceEvent) (st : State) : State :=
  match e with
  | .join socketId userId => (join joinOk socketId userId st).1
  | .disconnect socketId => (disconnect disconnectOk socketId st).1

/-- The state after a sequence of presence events, the first one first. -/
def runPresence (es : List PresenceEvent) (st : State) : State :=
  es.foldl (fun acc e => applyPresence e acc) st

/-- The forward and inverse maps agree: the socket recorded for a user records that user. -/
def ForwardAgrees (st : State) : Prop :=
  ∀ u h, redisGet st.socketOf u = some h → redisGet st.userOf h = some u

/-- No socket joins under two user ids in a sequence of presence events: every join of the
socket `h` with a truthy user id is a join under `owner h`. -/
def SingleIdentity (owner : String → String) (es : List PresenceEvent) : Prop :=
  ∀ h u, PresenceEvent.join h (some u) ∈ es → u ≠ "" → u = owner h

/-- The unread count the clients compute from the answer of the fetch route
(`ChatScreen.js:274`, `ChatWithDoctor.js:209`):
`messages.filter(m => !m.read && m.senderId._id !== currentUser._id).length`. -/
def unreadCount (currentUserId : String) (messages : List ChatMessage) : Nat :=
  (messages.filter (fun m => !m.read && m.senderId != currentUserId)).length

/-- A user id holds no underscore. -/
def noUnderscore (s : String) : Prop := '_' ∉ s.data

instance (s : String) : Decidable (noUnderscore s) :=
  inferInstanceAs (Decidable ('_' ∉ s.data))

/-- A run of `join` in which the first write resolves and the second rejects. -/
def joinHalf : JoinEnv := ⟨true, false⟩

/-- A run of `disconnect` in which the second delete rejects. -/
def disconnectHalf : DisconnectEnv := ⟨true, true, false⟩

/-! ## The sign-up and sign-in routes (`routes/auth.js`) -/

/-- A document of the `User` collection, with the fields the sign-up route gives a new
document (`routes/auth.js:43-49`); `email` may be left out. -/
structure User where
  name : String
  email : Option String
  mobile : String
  password : String
  role : String
deriving DecidableEq, Repr

/-- The body of a sign-up request, destructured as `{ name, email, mobile, password,
role }`. -/
structure SignupBody where
  name : Option String
  email : Option String
  mobile : Option String
  password : Option String
  role : Option String
deriving DecidableEq, Repr

/-- The body of a sign-in request, destructured as `{ email, mobile, password }`. -/
structure SigninBody where
  email : Option String
  mobile : Option String
  password : Option String
deriving DecidableEq, Repr

/-- The answer of an auth route: status, `success`, `message` and, on success, the
serialised user.  The `error` text added in development mode is left out. -/
structure AuthResponse where
  status : Nat
  success : Bool
  message : String
  user : Option String
deriving DecidableEq, Repr

/-- The roles the sign-up route accepts (`routes/auth.js:34`). -/
def validRoles : List String := ["Patient", "Asha Worker", "PHC Doctor"]

/-- The filter of the sign-up route (`routes/auth.js:19-24`): the same mobile, or, when an
email was given, the lower-cased email. -/
def signupMatches (toLowerCase : String → String) (body : SignupBody) (u : User) : Bool :=
  u.mobile == body.mobile.getD ""
    || (truthy body.email && u.email == some (toLowerCase (body.email.getD "")))

/-- The route `POST /signup` (`routes/auth.js:6-69`).  `toLowerCase` stands for
`String.prototype.toLowerCase`, `toJSON` for `user.toJSON()`; `findOk` tells whether
`User.findOne` resolves; `save` is `user.save()` with the schema of the `User` model, which
is not part of the sources: `none` when it rejects, else the document stored.  The result
is the collection after the request and the answer. -/
def signup (toLowerCase : String → String) (findOk : Bool) (save : User → Option User)
    (toJSON : User → String) (users : List User) (body : SignupBody) :
    List User × AuthResponse :=
  if !truthy body.name || !truthy body.mobile || !truthy body.password || !truthy body.role then
    (users, ⟨400, false,
      "Please fill in all required fields (Name, Mobile, Password, and Role).", none⟩)
  else if !findOk then
    (users, ⟨500, false, "Error creating account. Please try again.", none⟩)
  else if (users.find? (signupMatches toLowerCase body)).isSome then
    (users, ⟨400, false, "User already exists with this mobile number or email.", none⟩)
  else if !validRoles.contains (body.role.getD "") then
    (users, ⟨400, false, "Invalid role. Must be one of: Patient, Asha Worker, PHC Doctor",
      none⟩)
  else
    match save { name := body.name.getD "",
                 email := if truthy body.email then body.email else none,
                 mobile := body.mobile.getD "", password := body.password.getD "",
                 role := body.role.getD "" } with
    | none => (users, ⟨500, false, "Error creating account. Please try again.", none⟩)
    | some stored =>
      (users ++ [stored],
        ⟨201, true, "Account created successfully. You will be notified once approved.",
          some (toJSON stored)⟩)

/-- The query of the sign-in route (`routes/auth.js:85-89`): by the lower-cased email when an
email was given, else by the mobile. -/
def signinFind (toLowerCase : String → String) (users : List User) (body : SigninBody) :
    Option User :=
  if truthy body.email then
    users.find? (fun u => u.email == some (toLowerCase (body.email.getD "")))
  else
    users.find? (fun u => u.mobile == body.mobile.getD "")

/-- The answer of the sign-in route to a failed login (`routes/auth.js:92-95`, `111-114`). -/
def invalidCredentials : AuthResponse :=
  ⟨401, false, "Invalid credentials. Please check your email/mobile and password.", none⟩

/-- The route `POST /signin` (`routes/auth.js:72-133`).  `comparePassword` is the method of
the `User` model, which is not part of the sources: `none` when it rejects, else whether
the password fits. -/
def signin (toLowerCase : String → String) (findOk : Bool)
    (comparePassword : User → String → Option Bool) (toJSON : User → String)
    (users : List User) (body : SigninBody) : AuthResponse :=
  if !truthy body.password || (!truthy body.email && !truthy body.mobile) then
    ⟨400, false, "Please provide email/mobile and password.", none⟩
  else if !findOk then ⟨500, false, "Error signing in. Please try again.", none⟩
  else
    match signinFind toLowerCase users body with
    | none => invalidCredentials
    | some user =>
      match comparePassword user (body.password.getD "") with
      | none => ⟨500, false, "Error signing in. Please try again.", none⟩
      | some false => invalidCredentials
      | some true => ⟨200, true, "Login successful", some (toJSON user)⟩

/-- The condition of the sign-up route in the words of the specification: name, mobile,
password and role are all non-empty, no existing user has the same mobile or the
lower-cased email, and the role is one of the three roles. -/
def SignupAllowed (toLowerCase : String → String) (users : List User) (body : SignupBody) :
    Prop :=
  (truthy body.name = true ∧ truthy body.mobile = true ∧ truthy body.password = true
    ∧ truthy body.role = true)
  ∧ (∀ u ∈ users, u.mobile ≠ body.mobile.getD ""
      ∧ (truthy body.email = true → u.email ≠ some (toLowerCase (body.email.getD ""))))
  ∧ body.role.getD "" ∈ ["Patient", "Asha Worker", "PHC Doctor"]

/-- A stand-in for `toLowerCase` in concrete runs. -/
def lowerAscii (s : String) : String := ⟨s.data.map Char.toLower⟩

/-- A stand-in for `toJSON` in concrete runs: the name of the user. -/
def nameOf (u : User) : String := u.name

/-- A stand-in for `comparePassword` in concrete runs: the stored password is the given
one. -/
def plainCompare (u : User) (password : String) : Option Bool := some (u.password == password)

/-- A collection holding one user. -/
def oneUser : List User :=
  [⟨"Asha", some "asha@example.org", "9000000001", "secret", "Asha Worker"⟩]

/-- A sequence of operations: `userB` sends `hi` to `userA`, and `userA` answers. -/
def twoSends : List Op :=
  [.send_message bodyOf envOk "sockB" (some ⟨some userB, some userA, some "hi"⟩),
   .send_message bodyOf envOk "sockA" (some ⟨some userA, some userB, some "hello"⟩)]

/-! ### Facts on the string order -/

theorem ltUnits_irrefl (xs : List Nat) : ltUnits xs xs = false := by
  induction xs with
  | nil => rfl
  | cons x xs ih => simp [ltUnits, ih]

theorem ltUnits_asymm : ∀ xs ys : List Nat, ltUnits xs ys = true → ltUnits ys xs = false
  | [], [] => by simp [ltUnits]
  | [], _ :: _ => by simp [ltUnits]
  | _ :: _, [] => by simp [ltUnits]
  | x :: xs, y :: ys => by
    intro h
    simp only [ltUnits] at h ⊢
    by_cases hxy : x < y
    · have hyx : ¬ y < x := by omega
      simp [hyx, hxy]
    · by_cases hyx : y < x
      · simp [hxy, hyx] at h
      · simp only [hxy, hyx, if_false] at h ⊢
        exact ltUnits_asymm xs ys h

theorem ltUnits_total : ∀ xs ys : List Nat,
    ltUnits xs ys = false → ltUnits ys xs = false → xs = ys
  | [], [] => by simp
  | [], _ :: _ => by simp [ltUnits]
  | _ :: _, [] => by simp [ltUnits]
  | x :: xs, y :: ys => by
    intro h1 h2
    simp only [ltUnits] at h1 h2
    by_cases hxy : x < y
    · simp [hxy] at h1
    · by_cases hyx : y < x
      · simp [hyx] at h2
      · simp only [hxy, hyx, if_false] at h1 h2
        have hx : x = y := by omega
        rw [hx, ltUnits_total xs ys h1 h2]

theorem utf16_inj_aux (c d : Char) (r s : List Nat) (h : utf16 c ++ r = utf16 d ++ s) :
    c = d ∧ r = s := by
  have hc := c.valid
  have hd := d.valid
  simp only [UInt32.isValidChar, Nat.isValidChar] at hc hd
  have hcn : c.toNat = c.val.toNat := rfl
  have hdn : d.toNat = d.val.toNat := rfl
  unfold utf16 at h
  by_cases h1 : c.toNat < 0x10000 <;> by_cases h2 : d.toNat < 0x10000
  · simp only [h1, h2, if_true, List.cons_append, List.nil_append, List.cons.injEq] at h
    exact ⟨Char.ext (UInt32.ext (by omega)), h.2⟩
  · simp only [h1, h2, if_true, if_false, List.cons_append, List.nil_append,
      List.cons.injEq] at h
    omega
  · simp only [h1, h2, if_true, if_false, List.cons_append, List.nil_append,
      List.cons.injEq] at h
    omega
  · simp only [h1, h2, if_false, List.cons_append, List.nil_append, List.cons.injEq] at h
    exact ⟨Char.ext (UInt32.ext (by omega)), h.2.2⟩

theorem utf16_ne_nil (c : Char) (r : List Nat) : utf16 c ++ r ≠ [] := by
  unfold utf16
  split <;> simp

theorem flatMap_utf16_inj : ∀ l₁ l₂ : List Char,
    l₁.flatMap utf16 = l₂.flatMap utf16 → l₁ = l₂
  | [], [] => fun _ => rfl
  | [], d :: l₂ => fun h => by
    simp only [List.flatMap_nil, List.flatMap_cons] at h
    exact absurd h.symm (utf16_ne_nil d _)
  | c :: l₁, [] => fun h => by
    simp only [List.flatMap_nil, List.flatMap_cons] at h
    exact absurd h (utf16_ne_nil c _)
  | c :: l₁, d :: l₂ => fun h => by
    simp only [List.flatMap_cons] at h
    obtain ⟨hcd, hr⟩ := utf16_inj_aux c d _ _ h
    rw [hcd, flatMap_utf16_inj l₁ l₂ hr]

theorem toUTF16_inj (a b : String) (h : toUTF16 a = toUTF16 b) : a = b :=
  String.ext (flatMap_utf16_inj _ _ h)

theorem jsLt_asymm (a b : String) (h : jsLt a b = true) : jsLt b a = false :=
  ltUnits_asymm _ _ h

theorem jsLt_total (a b : String) (h1 : jsLt a b = false) (h2 : jsLt b a = false) : a = b :=
  toUTF16_inj a b (ltUnits_total _ _ h1 h2)

theorem jsSort_pair (a b : String) :
    jsSort [a, b] = if jsLt b a = true then [b, a] else [a, b] := by
  unfold jsSort
  simp only [List.insertionSort, List.orderedInsert, sortLe]
  by_cases h : jsLt b a = true
  · simp [h]
  · simp [h]

theorem chatRoomId_eq (a b : String) :
    chatRoomId a b = if jsLt b a = true then b ++ "_" ++ a else a ++ "_" ++ b := by
  unfold chatRoomId
  rw [jsSort_pair]
  split <;> simp [jsJoin, String.intercalate, String.intercalate.go]

theorem chatRoomId_comm (a b : String) : chatRoomId a b = chatRoomId b a := by
  rw [chatRoomId_eq, chatRoomId_eq]
  by_cases h1 : jsLt b a = true
  · have h2 := jsLt_asymm b a h1
    simp [h1, h2]
  · by_cases h2 : jsLt a b = true
    · simp [h1, h2]
    · have : a = b := jsLt_total a b (by simpa using h2) (by simpa using h1)
      simp [this]

/-! ### Facts on the key-value maps -/

theorem lookup_kvDel_self {α : Type} (m : KV α) (k : String) : (kvDel m k).lookup k = none := by
  induction m with
  | nil => rfl
  | cons p m ih =>
    obtain ⟨k', v⟩ := p
    by_cases h : k' = k
    · simpa [kvDel, List.filter_cons, h] using ih
    · have hk : (k == k') = false := by simpa using fun e : k = k' => h e.symm
      simpa [kvDel, List.filter_cons, h, List.lookup_cons, hk] using ih

theorem lookup_kvDel_other {α : Type} (m : KV α) (k k' : String) (h : k' ≠ k) :
    (kvDel m k).lookup k' = m.lookup k' := by
  induction m with
  | nil => rfl
  | cons p m ih =>
    obtain ⟨k₀, v⟩ := p
    by_cases h0 : k₀ = k
    · subst h0
      have hk : (k' == k₀) = false := by simpa using h
      simpa [kvDel, List.filter_cons, List.lookup_cons, hk] using ih
    · by_cases h1 : k' = k₀
      · simp [kvDel, List.filter_cons, h0, List.lookup_cons, h1]
      · have hk : (k' == k₀) = false := by simpa using h1
        simpa [kvDel, List.filter_cons, h0, List.lookup_cons, hk] using ih

theorem lookup_kvSet_self {α : Type} (m : KV α) (k : String) (v : α) :
    (kvSet m k v).lookup k = some v := by
  simp [kvSet, List.lookup_cons]

theorem lookup_kvSet_other {α : Type} (m : KV α) (k k' : String) (v : α) (h : k' ≠ k) :
    (kvSet m k v).lookup k' = m.lookup k' := by
  have hk : (k' == k) = false := by simpa using h
  simp [kvSet, List.lookup_cons, hk, lookup_kvDel_other m k k' h]

theorem bufferItems_redisLpush (m : KV ListEntry) (k v : String) :
    bufferItems (redisLpush m k v) k = v :: bufferItems m k := by
  unfold bufferItems redisLpush
  cases h : m.lookup k <;> simp [lookup_kvSet_self]

theorem bufferItems_redisExpire (m : KV ListEntry) (k : String) (n : Nat) :
    bufferItems (redisExpire m k n) k = bufferItems m k := by
  unfold bufferItems redisExpire
  cases h : m.lookup k <;> simp [lookup_kvSet_self, h]

theorem redisLpush_ne (m : KV ListEntry) (k v : String) : redisLpush m k v ≠ m := by
  intro h
  have h1 := bufferItems_redisLpush m k v
  rw [h] at h1
  have h2 := congrArg List.length h1
  simp at h2

/-! ### The send_message handler, step by step -/

theorem send_message_invalid (f : PopulatedMessage → String) (env : SendEnv) (sid : String)
    (data : SendData) (st : State)
    (h : truthy data.senderId = false ∨ truthy data.receiverId = false
      ∨ truthy data.message = false) :
    send_message f env sid data st = (st, [missingFields sid]) := by
  unfold send_message
  rcases h with h | h | h <;> simp [h]

theorem send_message_valid (f : PopulatedMessage → String) (env : SendEnv) (sid s r m : String)
    (st : State) (hs : s ≠ "") (hr : r ≠ "") (hm : m ≠ "") :
    send_message f env sid ⟨some s, some r, some m⟩ st =
      if env.save = false then (st, [sendFailed sid])
      else
        match env.populate with
        | none => ({ st with messages := st.messages ++ [newChatMessage env.now env.savedAt s r m] },
            [sendFailed sid])
        | some u =>
          if env.get = false then
            ({ st with messages := st.messages ++ [newChatMessage env.now env.savedAt s r m] },
              [sendFailed sid])
          else
            let push : List Emit :=
              if truthy (redisGet st.socketOf r) then
                [⟨(redisGet st.socketOf r).getD "",
                  .receive_message ⟨newChatMessage env.now env.savedAt s r m, u⟩ s⟩]
              else []
            let ack : List Emit := [⟨sid, .message_sent ⟨newChatMessage env.now env.savedAt s r m, u⟩⟩]
            if env.lpush = false then
              ({ st with messages := st.messages ++ [newChatMessage env.now env.savedAt s r m] },
                push ++ ack ++ [sendFailed sid])
            else if env.expire = false then
              ({ st with
                  messages := st.messages ++ [newChatMessage env.now env.savedAt s r m]
                  buffers := redisLpush st.buffers r (f ⟨newChatMessage env.now env.savedAt s r m, u⟩) },
                push ++ ack ++ [sendFailed sid])
            else
              ({ st with
                  messages := st.messages ++ [newChatMessage env.now env.savedAt s r m]
                  buffers := redisExpire
                    (redisLpush st.buffers r (f ⟨newChatMessage env.now env.savedAt s r m, u⟩)) r 86400 },
                push ++ ack) := by
  unfold send_message
  cases env.save <;> cases env.populate <;> cases env.get <;> cases env.lpush <;>
    cases env.expire <;> simp [truthy, hs, hr, hm]

theorem conversationIdSpec_eq (a b : String) : conversationIdSpec a b = chatRoomId a b := by
  rw [chatRoomId_eq]
  unfold conversationIdSpec jsMin jsMax
  split <;> rfl

/-! ## Results on the conversation id and on the send path -/

/-- C1: the chat room id does not depend on the order of the two user ids.  The send
handler, the fetch route and the mark-read route compute it by the one expression
`chatRoomId`; in particular a send from `a` to `b` and a send from `b` to `a` are stored
under the same id, the fetch route answers the same for `(a, b)` and `(b, a)`, and the
mark-read route selects on the same id for both orders. -/
theorem conversation_id_symmetric (a b : String) :
    chatRoomId a b = chatRoomId b a
    ∧ (∀ (t t' v v' : Nat) (m m' : String),
        (newChatMessage t v a b m).chatRoomId = (newChatMessage t' v' b a m').chatRoomId)
    ∧ (∀ (ok : Bool) (st : State), getMessages ok st a b = getMessages ok st b a)
    ∧ (∀ (now : Nat) (st : State) (x : ChatMessage), x ∈ (markRead now st a b).messages →
        x.chatRoomId = chatRoomId b a → x.receiverId = a → x.read = true) := by
  refine ⟨chatRoomId_comm a b, fun _ _ _ _ _ _ => chatRoomId_comm a b, ?_, ?_⟩
  · intro ok st
    simp only [getMessages, findMessages, chatRoomId_comm a b]
  · intro now st x hx hroom hrecv
    simp only [markRead, List.mem_map] at hx
    obtain ⟨y, _, hy⟩ := hx
    by_cases hc : (y.chatRoomId == chatRoomId a b && y.receiverId == a && y.read == false) = true
    · rw [if_pos hc] at hy
      rw [← hy]
    · rw [if_neg hc] at hy
      subst hy
      rw [chatRoomId_comm b a] at hroom
      cases hread : y.read
      · simp [hroom, hrecv, hread] at hc
      · rfl

/-- C2: an accepted send (no field empty, the save resolves) appends to the collection
exactly one record; it carries the given sender, receiver and body, `read = false`, the
timestamp of the clock, and as conversation id the smaller id, an underscore and the larger
id.  This holds whatever the later calls of the handler do. -/
theorem send_message_persists_record (f : PopulatedMessage → String) (env : SendEnv)
    (sid s r m : String) (st : State) (hs : s ≠ "") (hr : r ≠ "") (hm : m ≠ "")
    (hsave : env.save = true) :
    (send_message f env sid ⟨some s, some r, some m⟩ st).1.messages =
      st.messages ++ [{ senderId := s, receiverId := r, message := m, timestamp := env.now,
                        read := false, chatRoomId := conversationIdSpec s r,
                        createdAt := env.savedAt, updatedAt := env.savedAt }] := by
  rw [send_message_valid f env sid s r m st hs hr hm, conversationIdSpec_eq]
  simp only [hsave, newChatMessage]
  cases env.populate <;> cases env.get <;> cases env.lpush <;> cases env.expire <;> simp

theorem send_message_persists_record_witness :
    (send_message (fun p => p.doc.message) ⟨1000, 1001, true, some none, true, true, true⟩ "sockA"
        ⟨some "507f1f77bcf86cd799439011", some "507f1f77bcf86cd799439012", some "hello"⟩
        ⟨[], [], [], []⟩).1.messages =
      [] ++ [{ senderId := "507f1f77bcf86cd799439011",
               receiverId := "507f1f77bcf86cd799439012", message := "hello",
               timestamp := 1000, read := false,
               chatRoomId := conversationIdSpec "507f1f77bcf86cd799439011"
                 "507f1f77bcf86cd799439012",
               createdAt := 1001, updatedAt := 1001 }] :=
  send_message_persists_record (fun p => p.doc.message) ⟨1000, 1001, true, some none, true, true, true⟩
    "sockA" "507f1f77bcf86cd799439011" "507f1f77bcf86cd799439012" "hello" ⟨[], [], [], []⟩
    (by decide) (by decide) (by decide) rfl

/-! ### Fetching after a send -/

theorem findMessages_send_perm (f : PopulatedMessage → String) (env : SendEnv)
    (sid s r m : String) (st : State) (hs : s ≠ "") (hr : r ≠ "") (hm : m ≠ "")
    (hsave : env.save = true)
    (hlen : (st.messages.filter (fun x => x.chatRoomId == chatRoomId s r)).length < 100) :
    List.Perm (findMessages (send_message f env sid ⟨some s, some r, some m⟩ st).1 s r)
      (newChatMessage env.now env.savedAt s r m :: findMessages st s r) := by
  have hmsgs : (send_message f env sid ⟨some s, some r, some m⟩ st).1.messages
      = st.messages ++ [newChatMessage env.now env.savedAt s r m] := by
    rw [send_message_valid f env sid s r m st hs hr hm]
    simp only [hsave]
    cases env.populate <;> cases env.get <;> cases env.lpush <;> cases env.expire <;> simp
  unfold findMessages
  rw [hmsgs, List.filter_append]
  have hnew : [newChatMessage env.now env.savedAt s r m].filter (fun x => x.chatRoomId == chatRoomId s r)
      = [newChatMessage env.now env.savedAt s r m] := by
    simp [newChatMessage]
  rw [hnew, List.take_of_length_le, List.take_of_length_le]
  · refine (List.perm_insertionSort _ _).trans ?_
    refine List.perm_append_comm.trans ?_
    exact List.Perm.cons _ (List.perm_insertionSort _ _).symm
  · rw [List.length_insertionSort]
    omega
  · rw [List.length_insertionSort, List.length_append]
    simp only [List.length_singleton]
    omega

/-- C3, at the failing input: `userA` sends `hello` to `userB` when their conversation holds
100 messages.  The message is stored, yet the fetch route returns the same 100 messages as
before the send, and the new message is not among them. -/
theorem send_message_fetch_at_limit :
    (send_message bodyOf envOk "sockA" helloData fullConversation).1.messages
        = fullConversation.messages ++ [newChatMessage 1000 1001 userA userB "hello"]
    ∧ findMessages (send_message bodyOf envOk "sockA" helloData fullConversation).1 userA userB
        = findMessages fullConversation userA userB
    ∧ newChatMessage 1000 1001 userA userB "hello"
        ∉ findMessages (send_message bodyOf envOk "sockA" helloData fullConversation).1
            userA userB := by
  decide

/-- C4: when the sender id, the receiver id or the body is missing or empty, or the payload
itself is missing, the handler leaves the whole state as it was (collection, presence maps
and offline buffers) and emits one event only, an error addressed to the socket the request
came from; for an object payload it is the error `Missing required fields`. -/
theorem send_message_rejects_missing_fields (f : PopulatedMessage → String) (env : SendEnv)
    (sid : String) (payload : Option SendData) (st : State)
    (h : ∀ data, payload = some data →
      truthy data.senderId = false ∨ truthy data.receiverId = false
        ∨ truthy data.message = false) :
    (on_send_message f env sid payload st).1 = st
    ∧ (∃ msg, (on_send_message f env sid payload st).2 = [⟨sid, .error msg⟩])
    ∧ (payload ≠ none →
        (on_send_message f env sid payload st).2 = [⟨sid, .error "Missing required fields"⟩]) := by
  cases payload with
  | none => exact ⟨rfl, ⟨_, rfl⟩, fun hne => absurd rfl hne⟩
  | some data =>
    simp only [on_send_message]
    rw [send_message_invalid f env sid data st (h data rfl)]
    exact ⟨rfl, ⟨_, rfl⟩, fun _ => rfl⟩

theorem send_message_rejects_missing_fields_witness :
    (on_send_message bodyOf envOk "sockA" (some ⟨some userA, none, some ""⟩) boundState).1
        = boundState
    ∧ (∃ msg, (on_send_message bodyOf envOk "sockA" (some ⟨some userA, none, some ""⟩)
        boundState).2 = [⟨"sockA", .error msg⟩])
    ∧ ((some ⟨some userA, none, some ""⟩ : Option SendData) ≠ none →
        (on_send_message bodyOf envOk "sockA" (some ⟨some userA, none, some ""⟩) boundState).2
          = [⟨"sockA", .error "Missing required fields"⟩]) :=
  send_message_rejects_missing_fields bodyOf envOk "sockA" (some ⟨some userA, none, some ""⟩)
    boundState (fun data hd => by
      cases hd
      exact Or.inr (Or.inl rfl))

/-- C5: when no field is empty and the save rejects, the handler leaves the whole state as
it was and emits one event only, the error `Failed to send message`, addressed to the
socket of the sender: nothing is pushed and no `message_sent` is emitted. -/
theorem send_message_save_failure (f : PopulatedMessage → String) (env : SendEnv)
    (sid s r m : String) (st : State) (hs : s ≠ "") (hr : r ≠ "") (hm : m ≠ "")
    (hsave : env.save = false) :
    (send_message f env sid ⟨some s, some r, some m⟩ st).1 = st
    ∧ (send_message f env sid ⟨some s, some r, some m⟩ st).2
        = [⟨sid, .error "Failed to send message"⟩] := by
  rw [send_message_valid f env sid s r m st hs hr hm]
  simp [hsave, sendFailed]

theorem send_message_save_failure_witness :
    (send_message bodyOf ⟨1000, 1001, false, some none, true, true, true⟩ "sockA"
        ⟨some userA, some userB, some "hello"⟩ boundState).1 = boundState
    ∧ (send_message bodyOf ⟨1000, 1001, false, some none, true, true, true⟩ "sockA"
        ⟨some userA, some userB, some "hello"⟩ boundState).2
        = [⟨"sockA", .error "Failed to send message"⟩] :=
  send_message_save_failure bodyOf ⟨1000, 1001, false, some none, true, true, true⟩ "sockA"
    userA userB "hello" boundState (by decide) (by decide) (by decide) rfl

/-- C6: in a send with no empty field whose save, populate and presence lookup resolve,
when the receiver is bound to the socket `h`, the handler pushes exactly one
`receive_message`; it is addressed to `h` and carries the stored message and the id of the
sender; the socket of the sender is sent `message_sent` with the same stored message, and
that message is in the collection. -/
theorem send_message_pushes_to_bound_receiver (f : PopulatedMessage → String) (env : SendEnv)
    (sid s r m h : String) (u : Option UserRef) (st : State)
    (hs : s ≠ "") (hr : r ≠ "") (hm : m ≠ "")
    (hsave : env.save = true) (hpop : env.populate = some u) (hget : env.get = true)
    (hbound : redisGet st.socketOf r = some h) (hh : h ≠ "") :
    (send_message f env sid ⟨some s, some r, some m⟩ st).2.filter Emit.isReceive
        = [⟨h, .receive_message ⟨newChatMessage env.now env.savedAt s r m, u⟩ s⟩]
    ∧ (send_message f env sid ⟨some s, some r, some m⟩ st).2.filter (Emit.isAckTo sid)
        = [⟨sid, .message_sent ⟨newChatMessage env.now env.savedAt s r m, u⟩⟩]
    ∧ newChatMessage env.now env.savedAt s r m
        ∈ (send_message f env sid ⟨some s, some r, some m⟩ st).1.messages
    ∧ (newChatMessage env.now env.savedAt s r m).read = false := by
  rw [send_message_valid f env sid s r m st hs hr hm]
  simp only [hsave, hpop, hget, hbound]
  cases env.lpush <;> cases env.expire <;>
    simp [truthy, hh, Emit.isReceive, Emit.isAckTo, sendFailed, newChatMessage]

theorem send_message_pushes_to_bound_receiver_witness :
    (send_message bodyOf envOk "sockA" ⟨some userA, some userB, some "hello"⟩
        boundState).2.filter Emit.isReceive
        = [⟨"sockB", .receive_message ⟨newChatMessage envOk.now envOk.savedAt userA userB "hello", none⟩
            userA⟩]
    ∧ (send_message bodyOf envOk "sockA" ⟨some userA, some userB, some "hello"⟩
        boundState).2.filter (Emit.isAckTo "sockA")
        = [⟨"sockA", .message_sent ⟨newChatMessage envOk.now envOk.savedAt userA userB "hello", none⟩⟩]
    ∧ newChatMessage envOk.now envOk.savedAt userA userB "hello"
        ∈ (send_message bodyOf envOk "sockA" ⟨some userA, some userB, some "hello"⟩
            boundState).1.messages
    ∧ (newChatMessage envOk.now envOk.savedAt userA userB "hello").read = false :=
  send_message_pushes_to_bound_receiver bodyOf envOk "sockA" userA userB "hello" "sockB" none
    boundState (by decide) (by decide) (by decide) rfl rfl rfl (by decide) (by decide)

/-- C7: in a send with no empty field in which every awaited call resolves, when the
receiver has no entry in the presence map, the handler emits one event only, the
`message_sent` carrying the stored message, addressed to the socket of the sender; so
nothing is pushed and no error is raised.  The collection gains that message, with
`read = false`. -/
theorem send_message_to_absent_receiver (f : PopulatedMessage → String) (env : SendEnv)
    (sid s r m : String) (u : Option UserRef) (st : State)
    (hs : s ≠ "") (hr : r ≠ "") (hm : m ≠ "")
    (hsave : env.save = true) (hpop : env.populate = some u) (hget : env.get = true)
    (hlpush : env.lpush = true) (hexpire : env.expire = true)
    (habsent : redisGet st.socketOf r = none) :
    (send_message f env sid ⟨some s, some r, some m⟩ st).2
        = [⟨sid, .message_sent ⟨newChatMessage env.now env.savedAt s r m, u⟩⟩]
    ∧ (send_message f env sid ⟨some s, some r, some m⟩ st).1.messages
        = st.messages ++ [newChatMessage env.now env.savedAt s r m]
    ∧ (newChatMessage env.now env.savedAt s r m).read = false := by
  rw [send_message_valid f env sid s r m st hs hr hm]
  simp [hsave, hpop, hget, hlpush, hexpire, habsent, truthy, newChatMessage]

theorem send_message_to_absent_receiver_witness :
    (send_message bodyOf envOk "sockA" ⟨some userA, some userC, some "hello"⟩ boundState).2
        = [⟨"sockA", .message_sent ⟨newChatMessage envOk.now envOk.savedAt userA userC "hello", none⟩⟩]
    ∧ (send_message bodyOf envOk "sockA" ⟨some userA, some userC, some "hello"⟩
        boundState).1.messages
        = boundState.messages ++ [newChatMessage envOk.now envOk.savedAt userA userC "hello"]
    ∧ (newChatMessage envOk.now envOk.savedAt userA userC "hello").read = false :=
  send_message_to_absent_receiver bodyOf envOk "sockA" userA userC "hello" none boundState
    (by decide) (by decide) (by decide) rfl rfl rfl rfl rfl (by decide)

/-! ## Failures after the save -/

theorem truthy_eq_true (o : Option String) (h : truthy o = true) : ∃ s, o = some s ∧ s ≠ "" := by
  cases o with
  | none => simp [truthy] at h
  | some s => exact ⟨s, rfl, by simpa [truthy] using h⟩

/-- C8, counterexample: `userA` sends `hello` to `userB`, the save resolves and the presence
lookup rejects.  The message is stored, but the socket of the sender is sent an error and
no `message_sent`: the send is not treated as a send to an offline receiver. -/
theorem presence_failure_is_reported :
    envGetFails.save = true ∧ envGetFails.get = false
    ∧ (send_message bodyOf envGetFails "sockA" helloData emptyState).1.messages
        = [newChatMessage 1000 1001 userA userB "hello"]
    ∧ ¬ (ackCount "sockA" (send_message bodyOf envGetFails "sockA" helloData emptyState).2 = 1
        ∧ errorCount "sockA"
            (send_message bodyOf envGetFails "sockA" helloData emptyState).2 = 0) := by
  decide

/-- C8, amended: when the presence lookup rejects after the message was saved, the message
stays in the collection, the presence maps and the offline buffers are as before, and the
handler emits one event only, the error `Failed to send message` addressed to the socket of
the sender: no `message_sent`, no push. -/
theorem send_message_presence_failure (f : PopulatedMessage → String) (env : SendEnv)
    (sid s r m : String) (u : Option UserRef) (st : State)
    (hs : s ≠ "") (hr : r ≠ "") (hm : m ≠ "")
    (hsave : env.save = true) (hpop : env.populate = some u) (hget : env.get = false) :
    (send_message f env sid ⟨some s, some r, some m⟩ st).1
        = { st with messages := st.messages ++ [newChatMessage env.now env.savedAt s r m] }
    ∧ (send_message f env sid ⟨some s, some r, some m⟩ st).2
        = [⟨sid, .error "Failed to send message"⟩] := by
  rw [send_message_valid f env sid s r m st hs hr hm]
  simp [hsave, hpop, hget, sendFailed]

theorem send_message_presence_failure_witness :
    (send_message bodyOf envGetFails "sockA" ⟨some userA, some userB, some "hello"⟩
        boundState).1
        = { boundState with
            messages := boundState.messages ++ [newChatMessage envGetFails.now envGetFails.savedAt userA userB
              "hello"] }
    ∧ (send_message bodyOf envGetFails "sockA" ⟨some userA, some userB, some "hello"⟩
        boundState).2
        = [⟨"sockA", .error "Failed to send message"⟩] :=
  send_message_presence_failure bodyOf envGetFails "sockA" userA userB "hello" none boundState
    (by decide) (by decide) (by decide) rfl rfl rfl

/-- C9, counterexample.  First run: the buffer write rejects; the socket of the sender is
sent `message_sent` and then an error, two events instead of exactly one.  Second run: the
presence lookup rejects; the sender is sent an error only, although the message was
stored. -/
theorem sender_report_not_exclusive :
    ¬ (ackCount "sockA" (send_message bodyOf envLpushFails "sockA" helloData emptyState).2
        + errorCount "sockA" (send_message bodyOf envLpushFails "sockA" helloData emptyState).2
        = 1)
    ∧ ¬ (ackCount "sockA" (send_message bodyOf envGetFails "sockA" helloData emptyState).2 = 1
        ↔ (send_message bodyOf envGetFails "sockA" helloData emptyState).1.messages
            ≠ emptyState.messages) := by
  decide

theorem send_message_report (f : PopulatedMessage → String) (env : SendEnv) (sid : String)
    (data : SendData) (st : State) :
    (ackCount sid (send_message f env sid data st).2 ≤ 1
      ∧ errorCount sid (send_message f env sid data st).2 ≤ 1
      ∧ 1 ≤ ackCount sid (send_message f env sid data st).2
          + errorCount sid (send_message f env sid data st).2)
    ∧ (ackCount sid (send_message f env sid data st).2 = 1 →
        ∃ c, (send_message f env sid data st).1.messages = st.messages ++ [c])
    ∧ ((send_message f env sid data st).1.messages = st.messages →
        ackCount sid (send_message f env sid data st).2 = 0
        ∧ errorCount sid (send_message f env sid data st).2 = 1)
    ∧ (truthy data.senderId = true → truthy data.receiverId = true →
        truthy data.message = true → env.save = true → env.populate.isSome = true →
        env.get = true → env.lpush = true → env.expire = true →
        ackCount sid (send_message f env sid data st).2 = 1
        ∧ errorCount sid (send_message f env sid data st).2 = 0) := by
  by_cases hv : truthy data.senderId = true ∧ truthy data.receiverId = true
      ∧ truthy data.message = true
  · obtain ⟨h1, h2, h3⟩ := hv
    obtain ⟨s, hs, hs'⟩ := truthy_eq_true _ h1
    obtain ⟨r, hr, hr'⟩ := truthy_eq_true _ h2
    obtain ⟨m, hm, hm'⟩ := truthy_eq_true _ h3
    have hd : data = ⟨some s, some r, some m⟩ := by
      cases data
      simp_all
    subst hd
    rw [send_message_valid f env sid s r m st hs' hr' hm']
    have hpush : ∀ (c : Bool) (e : PopulatedMessage) (t : String),
        (List.filter (Emit.isAckTo sid)
          (if c = true then [(⟨t, .receive_message e s⟩ : Emit)] else [])) = []
        ∧ (List.filter (Emit.isErrorTo sid)
          (if c = true then [(⟨t, .receive_message e s⟩ : Emit)] else [])) = [] := by
      intro c e t
      cases c <;> simp [Emit.isAckTo, Emit.isErrorTo]
    cases env.save <;> cases env.populate <;> cases env.get <;> cases env.lpush <;>
      cases env.expire <;>
      simp [ackCount, errorCount, Emit.isAckTo, Emit.isErrorTo, sendFailed, hpush, truthy, hs',
        hr', hm']
  · have h : truthy data.senderId = false ∨ truthy data.receiverId = false
        ∨ truthy data.message = false := by
      by_cases h1 : truthy data.senderId = true
      · by_cases h2 : truthy data.receiverId = true
        · by_cases h3 : truthy data.message = true
          · exact absurd ⟨h1, h2, h3⟩ hv
          · exact Or.inr (Or.inr (by simpa using h3))
        · exact Or.inr (Or.inl (by simpa using h2))
      · exact Or.inl (by simpa using h1)
    rw [send_message_invalid f env sid data st h]
    refine ⟨?_, ?_, ?_, ?_⟩
    · simp [ackCount, errorCount, Emit.isAckTo, Emit.isErrorTo, missingFields]
    · simp [ackCount, Emit.isAckTo, missingFields]
    · simp [ackCount, errorCount, Emit.isAckTo, Emit.isErrorTo, missingFields]
    · intro h1 h2 h3
      rcases h with h | h | h <;> simp_all

/-- C9, amended: for every request, a missing payload included, and every outcome of the
awaited calls, the socket of the sender is sent `message_sent` at most once and an error at
most once, and at least one of the two; `message_sent` is sent only if the message was
appended to the collection; if nothing was appended the sender is sent one error and no
`message_sent`; and when no field is empty and every call resolves the sender is sent one
`message_sent` and no error. -/
theorem sender_always_informed (f : PopulatedMessage → String) (env : SendEnv) (sid : String)
    (payload : Option SendData) (st : State) :
    (ackCount sid (on_send_message f env sid payload st).2 ≤ 1
      ∧ errorCount sid (on_send_message f env sid payload st).2 ≤ 1
      ∧ 1 ≤ ackCount sid (on_send_message f env sid payload st).2
          + errorCount sid (on_send_message f env sid payload st).2)
    ∧ (ackCount sid (on_send_message f env sid payload st).2 = 1 →
        ∃ c, (on_send_message f env sid payload st).1.messages = st.messages ++ [c])
    ∧ ((on_send_message f env sid payload st).1.messages = st.messages →
        ackCount sid (on_send_message f env sid payload st).2 = 0
        ∧ errorCount sid (on_send_message f env sid payload st).2 = 1)
    ∧ (∀ data, payload = some data →
        truthy data.senderId = true → truthy data.receiverId = true →
        truthy data.message = true → env.save = true → env.populate.isSome = true →
        env.get = true → env.lpush = true → env.expire = true →
        ackCount sid (on_send_message f env sid payload st).2 = 1
        ∧ errorCount sid (on_send_message f env sid payload st).2 = 0) := by
  cases payload with
  | none =>
    simp [on_send_message, ackCount, errorCount, Emit.isAckTo, Emit.isErrorTo, sendFailed]
  | some data =>
    obtain ⟨h1, h2, h3, h4⟩ := send_message_report f env sid data st
    refine ⟨h1, h2, h3, ?_⟩
    intro d hd
    cases hd
    exact h4

/-- C10, counterexample: `userA` sends `hello` to `userB`, who is bound to `sockB`, and
every call resolves.  The message is pushed live to `sockB`, and the offline buffer of
`userB` is written all the same. -/
theorem buffered_although_pushed :
    redisGet boundState.socketOf userB = some "sockB"
    ∧ (send_message bodyOf envOk "sockA" helloData boundState).2.filter Emit.isReceive
        = [⟨"sockB", .receive_message ⟨newChatMessage 1000 1001 userA userB "hello", none⟩ userA⟩]
    ∧ bufferItems boundState.buffers userB = []
    ∧ bufferItems (send_message bodyOf envOk "sockA" helloData boundState).1.buffers userB
        = ["hello"]
    ∧ (send_message bodyOf envOk "sockA" helloData boundState).1.buffers
        ≠ boundState.buffers := by
  decide

/-- C10, amended: a stored message is put at the head of the offline buffer of the receiver
whenever the presence lookup and the buffer write resolve, whether or not the receiver is
in the presence map (no assumption is made on it); when the presence lookup or the buffer
write rejects, the offline buffers are left as they were. -/
theorem send_message_buffers_regardless (f : PopulatedMessage → String) (env : SendEnv)
    (sid s r m : String) (u : Option UserRef) (st : State)
    (hs : s ≠ "") (hr : r ≠ "") (hm : m ≠ "")
    (hsave : env.save = true) (hpop : env.populate = some u) :
    (env.get = true → env.lpush = true →
      bufferItems (send_message f env sid ⟨some s, some r, some m⟩ st).1.buffers r
        = f ⟨newChatMessage env.now env.savedAt s r m, u⟩ :: bufferItems st.buffers r)
    ∧ (env.get = false ∨ env.lpush = false →
      (send_message f env sid ⟨some s, some r, some m⟩ st).1.buffers = st.buffers) := by
  rw [send_message_valid f env sid s r m st hs hr hm]
  simp only [hsave, hpop]
  constructor
  · intro hget hlpush
    cases hexp : env.expire
    · simp [hget, hlpush, bufferItems_redisLpush]
    · simp [hget, hlpush, bufferItems_redisExpire, bufferItems_redisLpush]
  · intro h
    rcases h with h | h
    · simp [h]
    · cases env.get <;> simp [h]

theorem send_message_buffers_regardless_witness :
    (envOk.get = true → envOk.lpush = true →
      bufferItems (send_message bodyOf envOk "sockA" ⟨some userA, some userB, some "hello"⟩
          boundState).1.buffers userB
        = bodyOf ⟨newChatMessage envOk.now envOk.savedAt userA userB "hello", none⟩
            :: bufferItems boundState.buffers userB)
    ∧ (envOk.get = false ∨ envOk.lpush = false →
      (send_message bodyOf envOk "sockA" ⟨some userA, some userB, some "hello"⟩
          boundState).1.buffers = boundState.buffers) :=
  send_message_buffers_regardless bodyOf envOk "sockA" userA userB "hello" none boundState
    (by decide) (by decide) (by decide) rfl rfl

/-! ## The offline buffer -/

theorem lookup_redisLpush_self (m : KV ListEntry) (k v : String) :
    (redisLpush m k v).lookup k = some ⟨v :: bufferItems m k, (m.lookup k).bind (·.ttl)⟩ := by
  unfold redisLpush bufferItems
  cases h : m.lookup k <;> simp [lookup_kvSet_self]

theorem lookup_redisLpush_other (m : KV ListEntry) (k k' v : String) (h : k' ≠ k) :
    (redisLpush m k v).lookup k' = m.lookup k' := by
  unfold redisLpush
  cases m.lookup k <;> simp [lookup_kvSet_other _ _ _ _ h]

theorem lookup_redisExpire_self (m : KV ListEntry) (k : String) (n : Nat) (e : ListEntry)
    (h : m.lookup k = some e) : (redisExpire m k n).lookup k = some ⟨e.items, some n⟩ := by
  unfold redisExpire
  simp [h, lookup_kvSet_self]

theorem lookup_redisExpire_other (m : KV ListEntry) (k k' : String) (n : Nat) (h : k' ≠ k) :
    (redisExpire m k n).lookup k' = m.lookup k' := by
  unfold redisExpire
  cases m.lookup k <;> simp [lookup_kvSet_other _ _ _ _ h]

theorem send_message_buffers (f : PopulatedMessage → String) (env : SendEnv)
    (sid s r m : String) (u : Option UserRef) (st : State)
    (hs : s ≠ "") (hr : r ≠ "") (hm : m ≠ "")
    (hsave : env.save = true) (hpop : env.populate = some u) (hget : env.get = true)
    (hlpush : env.lpush = true) (hexpire : env.expire = true) :
    (send_message f env sid ⟨some s, some r, some m⟩ st).1.buffers
      = redisExpire (redisLpush st.buffers r (f ⟨newChatMessage env.now env.savedAt s r m, u⟩)) r 86400 := by
  rw [send_message_valid f env sid s r m st hs hr hm]
  simp [hsave, hpop, hget, hlpush, hexpire]

theorem send_message_expire_rejected (f : PopulatedMessage → String) (env : SendEnv)
    (sid s r m : String) (u : Option UserRef) (st : State)
    (hs : s ≠ "") (hr : r ≠ "") (hm : m ≠ "")
    (hsave : env.save = true) (hpop : env.populate = some u) (hget : env.get = true)
    (hlpush : env.lpush = true) (hexpire : env.expire = false) :
    (send_message f env sid ⟨some s, some r, some m⟩ st).1.buffers
        = redisLpush st.buffers r (f ⟨newChatMessage env.now env.savedAt s r m, u⟩)
    ∧ bufferTtl (send_message f env sid ⟨some s, some r, some m⟩ st).1.buffers r
        = bufferTtl st.buffers r := by
  rw [send_message_valid f env sid s r m st hs hr hm]
  simp [hsave, hpop, hget, hlpush, hexpire, bufferTtl, lookup_redisLpush_self]

/-- C11: when the handler buffers a message (no field empty, every awaited call resolves),
the buffer key of the receiver ends with a time to live of 86400 seconds, whatever expiry
it had; the serialised stored message is an element of that buffer, at its head, in front
of what the buffer held; the buffer key of every other receiver is as it was. -/
theorem send_message_buffer_ttl (f : PopulatedMessage → String) (env : SendEnv)
    (sid s r m : String) (u : Option UserRef) (st : State)
    (hs : s ≠ "") (hr : r ≠ "") (hm : m ≠ "")
    (hsave : env.save = true) (hpop : env.populate = some u) (hget : env.get = true)
    (hlpush : env.lpush = true) (hexpire : env.expire = true) :
    bufferTtl (send_message f env sid ⟨some s, some r, some m⟩ st).1.buffers r = some 86400
    ∧ f ⟨newChatMessage env.now env.savedAt s r m, u⟩
        ∈ bufferItems (send_message f env sid ⟨some s, some r, some m⟩ st).1.buffers r
    ∧ bufferItems (send_message f env sid ⟨some s, some r, some m⟩ st).1.buffers r
        = f ⟨newChatMessage env.now env.savedAt s r m, u⟩ :: bufferItems st.buffers r
    ∧ ∀ r', r' ≠ r →
        (send_message f env sid ⟨some s, some r, some m⟩ st).1.buffers.lookup r'
          = st.buffers.lookup r' := by
  rw [send_message_buffers f env sid s r m u st hs hr hm hsave hpop hget hlpush hexpire]
  have hl := lookup_redisLpush_self st.buffers r (f ⟨newChatMessage env.now env.savedAt s r m, u⟩)
  have he := lookup_redisExpire_self _ r 86400 _ hl
  refine ⟨?_, ?_, ?_, ?_⟩
  · simp [bufferTtl, he]
  · simp [bufferItems, he]
  · rw [bufferItems_redisExpire, bufferItems_redisLpush]
  · intro r' hr'
    rw [lookup_redisExpire_other _ _ _ _ hr', lookup_redisLpush_other _ _ _ _ hr']

theorem send_message_buffer_ttl_witness :
    bufferTtl (send_message bodyOf envOk "sockA" ⟨some userA, some userB, some "hello"⟩
        boundState).1.buffers userB = some 86400
    ∧ bodyOf ⟨newChatMessage envOk.now envOk.savedAt userA userB "hello", none⟩
        ∈ bufferItems (send_message bodyOf envOk "sockA"
            ⟨some userA, some userB, some "hello"⟩ boundState).1.buffers userB
    ∧ bufferItems (send_message bodyOf envOk "sockA" ⟨some userA, some userB, some "hello"⟩
        boundState).1.buffers userB
        = bodyOf ⟨newChatMessage envOk.now envOk.savedAt userA userB "hello", none⟩
            :: bufferItems boundState.buffers userB
    ∧ ∀ r', r' ≠ userB →
        (send_message bodyOf envOk "sockA" ⟨some userA, some userB, some "hello"⟩
          boundState).1.buffers.lookup r' = boundState.buffers.lookup r' :=
  send_message_buffer_ttl bodyOf envOk "sockA" userA userB "hello" none boundState
    (by decide) (by decide) (by decide) rfl rfl rfl rfl rfl

/-! ## The presence maps -/

theorem join_ok (h u : String) (st : State) (hu : u ≠ "") :
    join joinOk h (some u) st
      = ({ st with socketOf := redisSet st.socketOf u h, userOf := redisSet st.userOf h u },
          .resolved) := by
  simp [join, joinOk, truthy, hu, templateOf]

theorem disconnect_bound (h u : String) (st : State) (hu : u ≠ "")
    (hb : redisGet st.userOf h = some u) :
    disconnect disconnectOk h st
      = ({ st with socketOf := kvDel st.socketOf u, userOf := kvDel st.userOf h },
          .resolved) := by
  simp [disconnect, disconnectOk, truthy, hu, hb, templateOf]

theorem disconnect_unbound (h : String) (st : State)
    (hb : truthy (redisGet st.userOf h) = false) :
    disconnect disconnectOk h st = (st, .resolved) := by
  simp [disconnect, disconnectOk, hb]

theorem redisGet_redisSet_self (m : KV StrEntry) (k v : String) :
    redisGet (redisSet m k v) k = some v := by
  simp [redisGet, redisSet, lookup_kvSet_self]

theorem redisGet_kvDel_self (m : KV StrEntry) (k : String) : redisGet (kvDel m k) k = none := by
  simp [redisGet, lookup_kvDel_self]

theorem filter_key_kvDel {α : Type} (m : KV α) (k : String) :
    (kvDel m k).filter (fun p => p.1 == k) = [] := by
  simp only [kvDel, List.filter_filter, List.filter_eq_nil_iff]
  intro p _
  by_cases h : p.1 = k <;> simp [h]

/-- C12: for every state, every non-empty user id `u` and every socket `h`, a join of `u`
on `h` followed by the disconnect of `h` (all Redis calls resolving) leaves no entry for
`u` in the forward map and no entry for `h` in the inverse map. -/
theorem join_then_disconnect_absent (h u : String) (st : State) (hu : u ≠ "") :
    redisGet (disconnect disconnectOk h (join joinOk h (some u) st).1).1.socketOf u = none
    ∧ redisGet (disconnect disconnectOk h (join joinOk h (some u) st).1).1.userOf h = none := by
  rw [join_ok h u st hu]
  rw [disconnect_bound h u _ hu (redisGet_redisSet_self _ _ _)]
  exact ⟨redisGet_kvDel_self _ _, redisGet_kvDel_self _ _⟩

theorem join_then_disconnect_absent_witness :
    redisGet (disconnect disconnectOk "sockB2"
        (join joinOk "sockB2" (some userB) boundState).1).1.socketOf userB = none
    ∧ redisGet (disconnect disconnectOk "sockB2"
        (join joinOk "sockB2" (some userB) boundState).1).1.userOf "sockB2" = none :=
  join_then_disconnect_absent "sockB2" userB boundState (by decide)

/-- C13: for every state, every non-empty user id `u` and distinct sockets `h1`, `h2`, a
join of `u` on `h1` followed by a join of `u` on `h2` leaves the forward map with exactly
one entry for `u`, and the lookup of `u` returns `h2`, not `h1`. -/
theorem join_last_write_wins (h1 h2 u : String) (st : State) (hu : u ≠ "") (hne : h1 ≠ h2) :
    redisGet (join joinOk h2 (some u) (join joinOk h1 (some u) st).1).1.socketOf u = some h2
    ∧ redisGet (join joinOk h2 (some u) (join joinOk h1 (some u) st).1).1.socketOf u ≠ some h1
    ∧ (join joinOk h2 (some u) (join joinOk h1 (some u) st).1).1.socketOf.filter
        (fun p => p.1 == u) = [(u, ⟨h2, none⟩)] := by
  rw [join_ok h1 u st hu, join_ok h2 u _ hu]
  refine ⟨redisGet_redisSet_self _ _ _, ?_, ?_⟩
  · rw [redisGet_redisSet_self]
    intro hc
    exact hne (Option.some.inj hc).symm
  · simp only [redisSet]
    rw [kvSet, List.filter_cons, filter_key_kvDel]
    simp

theorem join_last_write_wins_witness :
    redisGet (join joinOk "s2" (some userA) (join joinOk "s1" (some userA)
        boundState).1).1.socketOf userA = some "s2"
    ∧ redisGet (join joinOk "s2" (some userA) (join joinOk "s1" (some userA)
        boundState).1).1.socketOf userA ≠ some "s1"
    ∧ (join joinOk "s2" (some userA) (join joinOk "s1" (some userA)
        boundState).1).1.socketOf.filter (fun p => p.1 == userA) = [(userA, ⟨"s2", none⟩)] :=
  join_last_write_wins "s1" "s2" userA boundState (by decide) (by decide)

/-- C14: the disconnect handler is idempotent when its Redis calls resolve: for every state
and socket `h`, running it twice gives the state that running it once gives; and when the
inverse map has no entry for `h`, running it leaves the state as it was. -/
theorem disconnect_idempotent (h : String) (st : State) :
    (disconnect disconnectOk h (disconnect disconnectOk h st).1).1
        = (disconnect disconnectOk h st).1
    ∧ (redisGet st.userOf h = none → (disconnect disconnectOk h st).1 = st) := by
  constructor
  · cases hb : truthy (redisGet st.userOf h)
    · rw [disconnect_unbound h st hb, disconnect_unbound h st hb]
    · obtain ⟨u, hu, hu'⟩ := truthy_eq_true _ hb
      rw [disconnect_bound h u st hu' hu]
      rw [disconnect_unbound h _ (by simp [redisGet_kvDel_self, truthy])]
  · intro hb
    rw [disconnect_unbound h st (by simp [hb, truthy])]

/-- C15, counterexample: after `userA` joins on the socket `sockA`, the forward entry and
the inverse entry both exist and neither has a time to live. -/
theorem join_sets_no_expiry :
    redisGet (join joinOk "sockA" (some userA) emptyState).1.socketOf userA = some "sockA"
    ∧ redisGet (join joinOk "sockA" (some userA) emptyState).1.userOf "sockA" = some userA
    ∧ ¬ ((strTtl (join joinOk "sockA" (some userA) emptyState).1.socketOf userA).isSome = true
        ∧ (strTtl (join joinOk "sockA" (some userA) emptyState).1.userOf "sockA").isSome
            = true) := by
  decide

/-- C15, amended: the presence entries a join creates carry no expiry.  After a join of a
non-empty user id `u` on the socket `h`, the forward entry of `u` holds `h` and the inverse
entry of `h` holds `u`, both without time to live, whatever expiry the keys had before. -/
theorem join_entries_persist (h u : String) (st : State) (hu : u ≠ "") :
    (join joinOk h (some u) st).1.socketOf.lookup u = some ⟨h, none⟩
    ∧ (join joinOk h (some u) st).1.userOf.lookup h = some ⟨u, none⟩
    ∧ strTtl (join joinOk h (some u) st).1.socketOf u = none
    ∧ strTtl (join joinOk h (some u) st).1.userOf h = none := by
  rw [join_ok h u st hu]
  simp [redisSet, strTtl, lookup_kvSet_self]

theorem join_entries_persist_witness :
    (join joinOk "sockA" (some userA) boundState).1.socketOf.lookup userA
        = some ⟨"sockA", none⟩
    ∧ (join joinOk "sockA" (some userA) boundState).1.userOf.lookup "sockA"
        = some ⟨userA, none⟩
    ∧ strTtl (join joinOk "sockA" (some userA) boundState).1.socketOf userA = none
    ∧ strTtl (join joinOk "sockA" (some userA) boundState).1.userOf "sockA" = none :=
  join_entries_persist "sockA" userA boundState (by decide)

/-! ## Sessions that never joined, and typing -/

theorem send_message_userOf_irrelevant (f : PopulatedMessage → String) (env : SendEnv)
    (sid : String) (data : SendData) (st : State) (uo : KV StrEntry) :
    send_message f env sid data { st with userOf := uo }
      = ({ (send_message f env sid data st).1 with userOf := uo },
          (send_message f env sid data st).2) := by
  unfold send_message
  cases env.save <;> cases env.populate <;> cases env.get <;> cases env.lpush <;>
    cases env.expire <;>
    cases truthy data.senderId <;> cases truthy data.receiverId <;>
    cases truthy data.message <;> simp

/-- C16, counterexample: the socket `sockA` never joined (the inverse map has no entry for
it), yet its send of `hello` from `userA` to `userB` is not rejected: the message is
stored and buffered, `sockA` is sent `message_sent` and no error. -/
theorem unbound_send_is_accepted :
    redisGet emptyState.userOf "sockA" = none
    ∧ (send_message bodyOf envOk "sockA" helloData emptyState).1.messages
        = [newChatMessage 1000 1001 userA userB "hello"]
    ∧ bufferItems (send_message bodyOf envOk "sockA" helloData emptyState).1.buffers userB
        = ["hello"]
    ∧ ¬ ((send_message bodyOf envOk "sockA" helloData emptyState).1 = emptyState
        ∧ errorCount "sockA" (send_message bodyOf envOk "sockA" helloData emptyState).2 = 1) := by
  decide

/-- C16, amended: a session that never joined (no inverse entry for its socket) has its
send handled like any other; the handler does not look at the binding of the sending
socket and has no not-bound error.  With no empty field and every call resolving, the
message is stored, the socket is sent `message_sent` and no error, and the message is
put into the offline buffer of the receiver. -/
theorem send_message_ignores_binding (f : PopulatedMessage → String) (env : SendEnv)
    (sid s r m : String) (u : Option UserRef) (st : State)
    (hunbound : redisGet st.userOf sid = none)
    (hs : s ≠ "") (hr : r ≠ "") (hm : m ≠ "")
    (hsave : env.save = true) (hpop : env.populate = some u) (hget : env.get = true)
    (hlpush : env.lpush = true) (hexpire : env.expire = true) :
    (send_message f env sid ⟨some s, some r, some m⟩ st).1.messages
        = st.messages ++ [newChatMessage env.now env.savedAt s r m]
    ∧ (send_message f env sid ⟨some s, some r, some m⟩ st).2.filter (Emit.isAckTo sid)
        = [⟨sid, .message_sent ⟨newChatMessage env.now env.savedAt s r m, u⟩⟩]
    ∧ errorCount sid (send_message f env sid ⟨some s, some r, some m⟩ st).2 = 0
    ∧ bufferItems (send_message f env sid ⟨some s, some r, some m⟩ st).1.buffers r
        = f ⟨newChatMessage env.now env.savedAt s r m, u⟩ :: bufferItems st.buffers r
    ∧ redisGet (send_message f env sid ⟨some s, some r, some m⟩ st).1.userOf sid = none := by
  have hb := send_message_buffers f env sid s r m u st hs hr hm hsave hpop hget hlpush hexpire
  refine ⟨?_, ?_, ?_, ?_, ?_⟩
  · rw [send_message_valid f env sid s r m st hs hr hm]
    simp [hsave, hpop, hget, hlpush, hexpire]
  · rw [send_message_valid f env sid s r m st hs hr hm]
    cases hp : truthy (redisGet st.socketOf r) <;>
      simp [hsave, hpop, hget, hlpush, hexpire, hp, Emit.isAckTo]
  · rw [send_message_valid f env sid s r m st hs hr hm]
    cases hp : truthy (redisGet st.socketOf r) <;>
      simp [hsave, hpop, hget, hlpush, hexpire, hp, Emit.isErrorTo, errorCount]
  · rw [hb, bufferItems_redisExpire, bufferItems_redisLpush]
  · rw [send_message_valid f env sid s r m st hs hr hm]
    simp [hsave, hpop, hget, hlpush, hexpire, hunbound]

theorem send_message_ignores_binding_witness :
    (send_message bodyOf envOk "sockA" ⟨some userA, some userB, some "hello"⟩
        boundState).1.messages
        = boundState.messages ++ [newChatMessage envOk.now envOk.savedAt userA userB "hello"]
    ∧ (send_message bodyOf envOk "sockA" ⟨some userA, some userB, some "hello"⟩
        boundState).2.filter (Emit.isAckTo "sockA")
        = [⟨"sockA", .message_sent ⟨newChatMessage envOk.now envOk.savedAt userA userB "hello", none⟩⟩]
    ∧ errorCount "sockA" (send_message bodyOf envOk "sockA"
        ⟨some userA, some userB, some "hello"⟩ boundState).2 = 0
    ∧ bufferItems (send_message bodyOf envOk "sockA" ⟨some userA, some userB, some "hello"⟩
        boundState).1.buffers userB
        = bodyOf ⟨newChatMessage envOk.now envOk.savedAt userA userB "hello", none⟩
            :: bufferItems boundState.buffers userB
    ∧ redisGet (send_message bodyOf envOk "sockA" ⟨some userA, some userB, some "hello"⟩
        boundState).1.userOf "sockA" = none :=
  send_message_ignores_binding bodyOf envOk "sockA" userA userB "hello" none boundState
    (by decide) (by decide) (by decide) (by decide) rfl rfl rfl rfl rfl

/-- C17: the typing handler leaves the whole state as it was (collection, offline buffers,
presence maps), whatever its payload and whether or not the lookup resolves, and it never
emits anything but `user_typing`.  When the lookup resolves and the receiver is bound to a
socket `h`, it emits exactly one event, `user_typing` with the sender id and the flag of
the payload, addressed to `h`; when the receiver has no entry it emits nothing. -/
theorem typing_is_best_effort (getOk : Bool) (payload : Option TypingData) (st : State) :
    (typing getOk payload st).1 = st
    ∧ (∀ e ∈ (typing getOk payload st).2.1, e.isTyping = true)
    ∧ (∀ data h, payload = some data → getOk = true →
        redisGet st.socketOf (templateOf data.receiverId) = some h → h ≠ "" →
        (typing getOk payload st).2.1 = [⟨h, .user_typing data.senderId data.isTyping⟩])
    ∧ (∀ data, payload = some data →
        redisGet st.socketOf (templateOf data.receiverId) = none →
        (typing getOk payload st).2.1 = []) := by
  cases payload with
  | none => simp [typing]
  | some data =>
    cases getOk
    · simp [typing]
    · cases hp : truthy (redisGet st.socketOf (templateOf data.receiverId))
      · refine ⟨by simp [typing, hp], by simp [typing, hp], ?_, ?_⟩
        · intro d h hd _ hb hh
          cases hd
          simp [hb, truthy, hh] at hp
        · intro d hd _
          cases hd
          simp [typing, hp]
      · refine ⟨by simp [typing, hp], by simp [typing, hp, Emit.isTyping], ?_, ?_⟩
        · intro d h hd _ hb hh
          cases hd
          simp [typing, hb, truthy, hh]
        · intro d hd hb
          cases hd
          simp [hb, truthy] at hp

/-! ## The chat routes -/

/-- C18: for every state and users `a`, `b`, the fetch route returns only stored messages
whose conversation id is that of `a` and `b`, in ascending order of timestamp, and at most
100 of them; when the query resolves the answer is 200 with this list. -/
theorem getMessages_sorted_capped (st : State) (a b : String) :
    (∀ x ∈ findMessages st a b, x ∈ st.messages ∧ x.chatRoomId = conversationIdSpec a b)
    ∧ List.Pairwise (fun x y : ChatMessage => x.timestamp ≤ y.timestamp) (findMessages st a b)
    ∧ (findMessages st a b).length ≤ 100
    ∧ getMessages true st a b = ⟨200, some (findMessages st a b)⟩ := by
  refine ⟨?_, ?_, ?_, rfl⟩
  · intro x hx
    have h1 := List.mem_of_mem_take hx
    rw [List.mem_insertionSort] at h1
    rw [conversationIdSpec_eq]
    simpa using h1
  · haveI : IsTotal ChatMessage (fun x y => x.timestamp ≤ y.timestamp) :=
      ⟨fun x y => Nat.le_total _ _⟩
    haveI : IsTrans ChatMessage (fun x y => x.timestamp ≤ y.timestamp) :=
      ⟨fun _ _ _ h1 h2 => Nat.le_trans h1 h2⟩
    exact List.Pairwise.sublist (List.take_sublist _ _)
      (List.sorted_insertionSort (fun x y : ChatMessage => x.timestamp ≤ y.timestamp) _)
  · simp [findMessages, List.length_take]

/-- C19, at the failing input: the conversation of `userA` and `userB` holds 101 messages,
with the timestamps 0 to 100.  The fetch route returns the messages with the timestamps 0
to 99: the oldest message is returned and the most recent one is not. -/
theorem getMessages_returns_oldest :
    (findMessages overfullConversation userA userB).map (·.timestamp) = List.range 100
    ∧ newChatMessage 0 0 userB userA "m" ∈ findMessages overfullConversation userA userB
    ∧ newChatMessage 100 100 userB userA "m" ∈ overfullConversation.messages
    ∧ newChatMessage 100 100 userB userA "m" ∉ findMessages overfullConversation userA userB := by
  decide

/-- C20, counterexample: the collection holds an unread message from `userB` to `userA`,
saved at time 1, and mark-read for `(userA, userB)` runs at time 50.  The message gets
`read = true`, and its `updatedAt` goes from 1 to 50: a field other than `read` changed.
The two other messages are as they were. -/
theorem mark_read_stamps_update_time :
    mixedState.messages.map (·.read) = [false, false, false]
    ∧ (markRead 50 mixedState userA userB).messages.map (·.read) = [true, false, false]
    ∧ mixedState.messages.map (·.updatedAt) = [1, 2, 3]
    ∧ (markRead 50 mixedState userA userB).messages.map (·.updatedAt) = [50, 2, 3]
    ∧ ¬ ((markRead 50 mixedState userA userB).messages.map (·.updatedAt)
        = mixedState.messages.map (·.updatedAt)) := by
  decide

/-- C20, amended: the mark-read update keeps the collection position by position.  A
message of the conversation of `a` and `b` whose receiver is `a` and that is unread gets
`read = true` and has its `updatedAt` set to the time of the update; every other message is
left as it was, in particular every message addressed to `b` (for `b` other than `a`) and
every message of another conversation; no field other than `read` and `updatedAt` changes
on any message; the Redis maps are untouched; and the route answers 200. -/
theorem markRead_frame (now : Nat) (st : State) (a b : String) :
    List.Forall₂ (fun m m' : ChatMessage =>
        (m'.senderId = m.senderId ∧ m'.receiverId = m.receiverId ∧ m'.message = m.message
          ∧ m'.timestamp = m.timestamp ∧ m'.chatRoomId = m.chatRoomId
          ∧ m'.createdAt = m.createdAt)
        ∧ (m.chatRoomId = conversationIdSpec a b ∧ m.receiverId = a ∧ m.read = false →
            m'.read = true ∧ m'.updatedAt = now)
        ∧ (¬ (m.chatRoomId = conversationIdSpec a b ∧ m.receiverId = a ∧ m.read = false) →
            m' = m)
        ∧ (b ≠ a → m.receiverId = b → m' = m)
        ∧ (m.chatRoomId ≠ conversationIdSpec a b → m' = m))
      st.messages (markRead now st a b).messages
    ∧ (markRead now st a b).socketOf = st.socketOf
    ∧ (markRead now st a b).userOf = st.userOf
    ∧ (markRead now st a b).buffers = st.buffers
    ∧ putMessagesRead true now st a b = (markRead now st a b, 200) := by
  refine ⟨?_, rfl, rfl, rfl, rfl⟩
  simp only [markRead, List.forall₂_map_right_iff, List.forall₂_same, conversationIdSpec_eq]
  intro m _
  by_cases hc : m.chatRoomId = chatRoomId a b
  · by_cases hr : m.receiverId = a
    · cases hread : m.read
      · refine ⟨by simp [hc, hr, hread], by simp [hc, hr, hread], by simp [hc, hr, hread], ?_,
          by simp [hc]⟩
        intro hba hrb
        exact absurd (hr.symm.trans hrb) (fun e => hba e.symm)
      · simp [hc, hr, hread]
    · simp [hc, hr]
  · simp [hc]

/-! ## Repeating mark-read, and what the operations keep -/

/-- C21: the mark-read update is idempotent: for every state and users `a`, `b`, applying
it twice, at any two times, gives the state that applying it once gives, and so for the
route when its update resolves. -/
theorem markRead_idempotent (st : State) (a b : String) (now now' : Nat) :
    markRead now' (markRead now st a b) a b = markRead now st a b
    ∧ (putMessagesRead true now' (putMessagesRead true now st a b).1 a b).1
        = (putMessagesRead true now st a b).1 := by
  have h : markRead now' (markRead now st a b) a b = markRead now st a b := by
    simp only [markRead, List.map_map]
    congr 1
    apply List.map_congr_left
    intro m _
    simp only [Function.comp]
    by_cases hc : (m.chatRoomId == chatRoomId a b && m.receiverId == a && m.read == false) = true
    · simp only [hc, if_true]
      simp
    · rw [if_neg hc, if_neg hc]
  exact ⟨h, by simpa [putMessagesRead] using h⟩

theorem keptAs_refl (m : ChatMessage) : KeptAs m m :=
  ⟨rfl, rfl, rfl, rfl, rfl, fun h => h⟩

theorem keptAs_trans {m₁ m₂ m₃ : ChatMessage} (h₁ : KeptAs m₁ m₂) (h₂ : KeptAs m₂ m₃) :
    KeptAs m₁ m₃ := by
  obtain ⟨a1, a2, a3, a4, a5, a6⟩ := h₁
  obtain ⟨b1, b2, b3, b4, b5, b6⟩ := h₂
  exact ⟨b1.trans a1, b2.trans a2, b3.trans a3, b4.trans a4, b5.trans a5, fun h => b6 (a6 h)⟩

theorem appendOnly_refl (l : List ChatMessage) : AppendOnly l l :=
  fun _ m h => ⟨m, h, keptAs_refl m⟩

theorem appendOnly_trans {l₁ l₂ l₃ : List ChatMessage} (h₁ : AppendOnly l₁ l₂)
    (h₂ : AppendOnly l₂ l₃) : AppendOnly l₁ l₃ := by
  intro i m hm
  obtain ⟨m', hm', k⟩ := h₁ i m hm
  obtain ⟨m'', hm'', k'⟩ := h₂ i m' hm'
  exact ⟨m'', hm'', keptAs_trans k k'⟩

theorem appendOnly_of_extension {l₁ l₂ : List ChatMessage} (h : l₁ <+: l₂) : AppendOnly l₁ l₂ := by
  obtain ⟨t, rfl⟩ := h
  intro i m hm
  refine ⟨m, ?_, keptAs_refl m⟩
  have hi : i < l₁.length := by
    by_contra hc
    rw [List.getElem?_eq_none (by omega)] at hm
    cases hm
  rw [List.getElem?_append_left hi]
  exact hm

theorem send_message_messages (f : PopulatedMessage → String) (env : SendEnv) (sid : String)
    (data : SendData) (st : State) :
    st.messages <+: (send_message f env sid data st).1.messages := by
  unfold send_message
  cases env.save <;> cases env.populate <;> cases env.get <;> cases env.lpush <;>
    cases env.expire <;>
    cases truthy data.senderId <;> cases truthy data.receiverId <;>
    cases truthy data.message <;> simp

theorem join_messages (env : JoinEnv) (h : String) (u : Option String) (st : State) :
    (join env h u st).1.messages = st.messages := by
  unfold join
  cases env.setSocket <;> cases env.setUser <;> cases truthy u <;> simp

theorem disconnect_messages (env : DisconnectEnv) (h : String) (st : State) :
    (disconnect env h st).1.messages = st.messages := by
  unfold disconnect
  dsimp only
  split_ifs <;> rfl

theorem typing_state (getOk : Bool) (payload : Option TypingData) (st : State) :
    (typing getOk payload st).1 = st := by
  cases payload with
  | none => rfl
  | some data =>
    unfold typing
    dsimp only
    split_ifs <;> rfl

theorem step_keeps_messages (op : Op) (st : State) (h : op.isMarkRead = false) :
    st.messages <+: (step op st).messages := by
  cases op with
  | join env sid u => simp [step, join_messages]
  | send_message f env sid payload =>
    cases payload with
    | none => simp [step, on_send_message]
    | some data => simpa [step, on_send_message] using send_message_messages f env sid data st
  | typing getOk payload => simp [step, typing_state]
  | disconnect env sid => simp [step, disconnect_messages]
  | getMessages ok a b => simp [step]
  | putMessagesRead ok now a b => simp [Op.isMarkRead] at h

theorem markRead_appendOnly (now : Nat) (st : State) (a b : String) :
    AppendOnly st.messages (markRead now st a b).messages := by
  intro i m hm
  simp only [markRead, List.getElem?_map, hm, Option.map_some']
  refine ⟨_, rfl, ?_⟩
  by_cases hc : (m.chatRoomId == chatRoomId a b && m.receiverId == a && m.read == false) = true
  · rw [if_pos hc]
    exact ⟨rfl, rfl, rfl, rfl, rfl, fun _ => rfl⟩
  · rw [if_neg hc]
    exact keptAs_refl m

theorem step_appendOnly (op : Op) (st : State) : AppendOnly st.messages (step op st).messages := by
  cases hmr : op.isMarkRead
  · exact appendOnly_of_extension (step_keeps_messages op st hmr)
  · cases op with
    | putMessagesRead ok now a b =>
      cases ok
      · simpa [step, putMessagesRead] using appendOnly_refl st.messages
      · simpa [step, putMessagesRead] using markRead_appendOnly now st a b
    | join env sid u => simp [Op.isMarkRead] at hmr
    | send_message f env sid payload => simp [Op.isMarkRead] at hmr
    | typing getOk payload => simp [Op.isMarkRead] at hmr
    | disconnect env sid => simp [Op.isMarkRead] at hmr
    | getMessages ok a b => simp [Op.isMarkRead] at hmr

theorem run_appendOnly (ops : List Op) (st : State) :
    AppendOnly st.messages (run ops st).messages := by
  induction ops generalizing st with
  | nil => exact appendOnly_refl _
  | cons op ops ih =>
    have h : run (op :: ops) st = run ops (step op st) := rfl
    rw [h]
    exact appendOnly_trans (step_appendOnly op st) (ih (step op st))

/-- C22: stored messages are append-only.  After any sequence of operations (join,
send_message, typing, disconnect, fetch, mark-read, whatever their calls do), every message
that was stored is still stored at its position, with the same sender, receiver, body,
timestamp and conversation id, and a `read` flag that did not go back from true to false;
and every operation other than mark-read leaves the stored messages exactly as they were,
`read` included, adding at most new ones after them. -/
theorem messages_append_only (ops : List Op) (st : State) :
    AppendOnly st.messages (run ops st).messages
    ∧ (∀ (op : Op) (st' : State), op.isMarkRead = false →
        st'.messages <+: (step op st').messages) :=
  ⟨run_appendOnly ops st, fun op st' h => step_keeps_messages op st' h⟩

/-! ## Failures in the handlers without `catch` -/

/-- C23, counterexample: `userA` joins on `sockA`; the first Redis write resolves and the
second rejects.  The rejection leaves the handler unhandled, and the state reached is
neither the state before the handler nor the state after a complete join: the forward
entry is written and the inverse entry is not. -/
theorem join_failure_escapes :
    (join joinHalf "sockA" (some userA) emptyState).2 = Completion.rejected
    ∧ (join joinHalf "sockA" (some userA) emptyState).1 ≠ emptyState
    ∧ (join joinHalf "sockA" (some userA) emptyState).1
        ≠ (join joinOk "sockA" (some userA) emptyState).1
    ∧ redisGet (join joinHalf "sockA" (some userA) emptyState).1.socketOf userA = some "sockA"
    ∧ redisGet (join joinHalf "sockA" (some userA) emptyState).1.userOf "sockA" = none := by
  decide

/-- C23, amended: the send_message handler reports every failed call to the sender by one
error event and never writes the presence maps.  The join and the disconnect handler
change the presence maps by two separate calls and do not undo the first when the second
fails: when the first call fails the presence maps are as before; when only the second
fails, a join has written the forward entry alone and a disconnect has deleted the forward
entry alone.  The typing handler never changes the state. -/
theorem handler_failures :
    (∀ (f : PopulatedMessage → String) (env : SendEnv) (sid s r m : String) (st : State),
        s ≠ "" → r ≠ "" → m ≠ "" →
        (env.save = false ∨ env.populate = none ∨ env.get = false ∨ env.lpush = false
          ∨ env.expire = false) →
        errorCount sid (send_message f env sid ⟨some s, some r, some m⟩ st).2 = 1
        ∧ (send_message f env sid ⟨some s, some r, some m⟩ st).1.socketOf = st.socketOf
        ∧ (send_message f env sid ⟨some s, some r, some m⟩ st).1.userOf = st.userOf)
    ∧ (∀ (env : JoinEnv) (h u : String) (st : State), u ≠ "" →
        (env.setSocket = false → (join env h (some u) st).1 = st)
        ∧ (env.setSocket = true → env.setUser = false →
            (join env h (some u) st).1 = { st with socketOf := redisSet st.socketOf u h }))
    ∧ (∀ (env : DisconnectEnv) (h u : String) (st : State), u ≠ "" →
        redisGet st.userOf h = some u →
        (env.get = false ∨ env.delSocket = false → (disconnect env h st).1 = st)
        ∧ (env.get = true → env.delSocket = true → env.delUser = false →
            (disconnect env h st).1 = { st with socketOf := kvDel st.socketOf u }))
    ∧ (∀ (getOk : Bool) (payload : Option TypingData) (st : State),
        (typing getOk payload st).1 = st) := by
  refine ⟨?_, ?_, ?_, typing_state⟩
  · intro f env sid s r m st hs hr hm hfail
    rw [send_message_valid f env sid s r m st hs hr hm]
    have hpush : ∀ (c : Bool) (e : PopulatedMessage) (t : String),
        (List.filter (Emit.isErrorTo sid)
          (if c = true then [(⟨t, .receive_message e s⟩ : Emit)] else [])) = [] := by
      intro c e t
      cases c <;> simp [Emit.isErrorTo]
    revert hfail
    cases env.save <;> cases env.populate <;> cases env.get <;> cases env.lpush <;>
      cases env.expire <;>
      simp [errorCount, Emit.isErrorTo, sendFailed, hpush]
  · intro env h u st hu
    constructor
    · intro h1
      simp [join, truthy, hu, h1]
    · intro h1 h2
      simp [join, truthy, hu, h1, h2, templateOf]
  · intro env h u st hu hb
    constructor
    · intro h1
      rcases h1 with h1 | h1
      · simp [disconnect, h1]
      · cases hg : env.get <;> simp [disconnect, h1, hb, truthy, hu]
    · intro h1 h2 h3
      simp [disconnect, h1, h2, h3, hb, truthy, hu, templateOf]

/-! ## The conversation id separates conversations -/

theorem append_sep_inj (c : Char) : ∀ (l₁ l₂ r₁ r₂ : List Char), c ∉ l₁ → c ∉ l₂ →
    l₁ ++ c :: r₁ = l₂ ++ c :: r₂ → l₁ = l₂ ∧ r₁ = r₂
  | [], [], _, _, _, _, h => by simpa using h
  | [], y :: l₂, _, _, _, h2, h => by
    simp only [List.nil_append, List.cons_append, List.cons.injEq] at h
    exact absurd (h.1 ▸ List.mem_cons_self _ _) h2
  | x :: l₁, [], _, _, h1, _, h => by
    simp only [List.nil_append, List.cons_append, List.cons.injEq] at h
    exact absurd (h.1 ▸ List.mem_cons_self _ _) h1
  | x :: l₁, y :: l₂, r₁, r₂, h1, h2, h => by
    simp only [List.cons_append, List.cons.injEq] at h
    have ih := append_sep_inj c l₁ l₂ r₁ r₂ (fun hm => h1 (List.mem_cons_of_mem _ hm))
      (fun hm => h2 (List.mem_cons_of_mem _ hm)) h.2
    exact ⟨by rw [h.1, ih.1], ih.2⟩

theorem joined_inj (a b c d : String) (ha : noUnderscore a) (hc : noUnderscore c)
    (h : a ++ "_" ++ b = c ++ "_" ++ d) : a = c ∧ b = d := by
  have hd := congrArg String.data h
  simp only [String.data_append] at hd
  simp only [List.append_assoc, List.singleton_append] at hd
  obtain ⟨h1, h2⟩ := append_sep_inj '_' a.data c.data b.data d.data ha hc hd
  exact ⟨String.ext h1, String.ext h2⟩

theorem chatRoomId_inj (a b c d : String) (ha : noUnderscore a) (hb : noUnderscore b)
    (hc : noUnderscore c) (hd : noUnderscore d) (h : chatRoomId a b = chatRoomId c d) :
    (a = c ∧ b = d) ∨ (a = d ∧ b = c) := by
  rw [chatRoomId_eq, chatRoomId_eq] at h
  by_cases h1 : jsLt b a = true <;> by_cases h2 : jsLt d c = true
  · rw [if_pos h1, if_pos h2] at h
    obtain ⟨e1, e2⟩ := joined_inj b a d c hb hd h
    exact Or.inl ⟨e2, e1⟩
  · rw [if_pos h1, if_neg h2] at h
    obtain ⟨e1, e2⟩ := joined_inj b a c d hb hc h
    exact Or.inr ⟨e2, e1⟩
  · rw [if_neg h1, if_pos h2] at h
    obtain ⟨e1, e2⟩ := joined_inj a b d c ha hd h
    exact Or.inr ⟨e1, e2⟩
  · rw [if_neg h1, if_neg h2] at h
    exact Or.inl (joined_inj a b c d ha hc h)

theorem mem_findMessages {st : State} {a b : String} {x : ChatMessage}
    (hx : x ∈ findMessages st a b) : x ∈ st.messages ∧ x.chatRoomId = chatRoomId a b := by
  have h1 := List.mem_of_mem_take hx
  rw [List.mem_insertionSort] at h1
  simpa using h1

/-- C24: for user ids `a`, `b`, `c`, `d` that hold no underscore, the id of `(a, b)` equals
the id of `(c, d)` only if the two unordered pairs are the same; so a message the fetch
route returns for `(a, b)`, stored under the id of its own sender and receiver (ids
without underscore), was exchanged between `a` and `b`. -/
theorem chatRoomId_separates (a b c d : String) (ha : noUnderscore a) (hb : noUnderscore b)
    (hc : noUnderscore c) (hd : noUnderscore d) :
    (chatRoomId a b = chatRoomId c d → (a = c ∧ b = d) ∨ (a = d ∧ b = c))
    ∧ (∀ (st : State) (x : ChatMessage), x ∈ findMessages st a b →
        x.chatRoomId = chatRoomId x.senderId x.receiverId →
        noUnderscore x.senderId → noUnderscore x.receiverId →
        (x.senderId = a ∧ x.receiverId = b) ∨ (x.senderId = b ∧ x.receiverId = a)) := by
  refine ⟨chatRoomId_inj a b c d ha hb hc hd, ?_⟩
  intro st x hx hwf hs hr
  have hroom := (mem_findMessages hx).2
  rw [hwf] at hroom
  exact chatRoomId_inj _ _ a b hs hr ha hb hroom

theorem chatRoomId_separates_witness :
    (chatRoomId userA userB = chatRoomId userB userA →
      (userA = userB ∧ userB = userA) ∨ (userA = userA ∧ userB = userB))
    ∧ (∀ (st : State) (x : ChatMessage), x ∈ findMessages st userA userB →
        x.chatRoomId = chatRoomId x.senderId x.receiverId →
        noUnderscore x.senderId → noUnderscore x.receiverId →
        (x.senderId = userA ∧ x.receiverId = userB)
          ∨ (x.senderId = userB ∧ x.receiverId = userA)) :=
  chatRoomId_separates userA userB userB userA (by decide) (by decide) (by decide) (by decide)

/-! ## Presence under reconnection -/

/-- C25, at the failing input: `userA` joins on `s1`, then on `s2`, then `s1` disconnects.
Before the disconnect the lookup of `userA` returns `s2`; after it the lookup returns
nothing, although `s2` never disconnected and still has its inverse entry. -/
theorem superseded_disconnect_unbinds :
    redisGet (runPresence [.join "s1" (some userA), .join "s2" (some userA)]
        emptyState).socketOf userA = some "s2"
    ∧ redisGet (runPresence [.join "s1" (some userA), .join "s2" (some userA),
        .disconnect "s1"] emptyState).socketOf userA = none
    ∧ redisGet (runPresence [.join "s1" (some userA), .join "s2" (some userA),
        .disconnect "s1"] emptyState).userOf "s2" = some userA := by
  decide

theorem redisGet_redisSet_other (m : KV StrEntry) (k k' v : String) (h : k' ≠ k) :
    redisGet (redisSet m k v) k' = redisGet m k' := by
  simp [redisGet, redisSet, lookup_kvSet_other _ _ _ _ h]

theorem redisGet_kvDel_other (m : KV StrEntry) (k k' : String) (h : k' ≠ k) :
    redisGet (kvDel m k) k' = redisGet m k' := by
  simp [redisGet, lookup_kvDel_other _ _ _ h]

theorem join_falsy (env : JoinEnv) (h : String) (u : Option String) (st : State)
    (hu : truthy u = false) : join env h u st = (st, .resolved) := by
  simp [join, hu]

theorem applyPresence_agrees (owner : String → String) (e : PresenceEvent) (st : State)
    (hown : ∀ h u, e = .join h (some u) → u ≠ "" → u = owner h)
    (h1 : ForwardAgrees st) (h2 : ∀ h u, redisGet st.userOf h = some u → u = owner h) :
    ForwardAgrees (applyPresence e st)
    ∧ ∀ h u, redisGet (applyPresence e st).userOf h = some u → u = owner h := by
  cases e with
  | join h uo =>
    cases ht : truthy uo
    · simp only [applyPresence, join_falsy joinOk h uo st ht]
      exact ⟨h1, h2⟩
    · obtain ⟨u, rfl, hu⟩ := truthy_eq_true _ ht
      have how : u = owner h := hown h u rfl hu
      simp only [applyPresence, join_ok h u st hu]
      constructor
      · intro u' h' hf
        by_cases hu' : u' = u
        · subst hu'
          rw [redisGet_redisSet_self] at hf
          cases hf
          exact redisGet_redisSet_self _ _ _
        · rw [redisGet_redisSet_other _ _ _ _ hu'] at hf
          have hinv := h1 u' h' hf
          by_cases hh : h' = h
          · subst hh
            exact absurd ((h2 h' u' hinv).trans how.symm) hu'
          · rw [redisGet_redisSet_other _ _ _ _ hh]
            exact hinv
      · intro h' u' hf
        by_cases hh : h' = h
        · subst hh
          rw [redisGet_redisSet_self] at hf
          cases hf
          exact how
        · rw [redisGet_redisSet_other _ _ _ _ hh] at hf
          exact h2 h' u' hf
  | disconnect h =>
    cases ht : truthy (redisGet st.userOf h)
    · simp only [applyPresence, disconnect_unbound h st ht]
      exact ⟨h1, h2⟩
    · obtain ⟨u, hb, hu⟩ := truthy_eq_true _ ht
      simp only [applyPresence, disconnect_bound h u st hu hb]
      constructor
      · intro u' h' hf
        by_cases hu' : u' = u
        · subst hu'
          rw [redisGet_kvDel_self] at hf
          cases hf
        · rw [redisGet_kvDel_other _ _ _ hu'] at hf
          have hinv := h1 u' h' hf
          by_cases hh : h' = h
          · subst hh
            rw [hb] at hinv
            exact absurd (Option.some.inj hinv).symm hu'
          · rw [redisGet_kvDel_other _ _ _ hh]
            exact hinv
      · intro h' u' hf
        by_cases hh : h' = h
        · subst hh
          rw [redisGet_kvDel_self] at hf
          cases hf
        · rw [redisGet_kvDel_other _ _ _ hh] at hf
          exact h2 h' u' hf

theorem runPresence_agrees (owner : String → String) : ∀ (es : List PresenceEvent) (st : State),
    SingleIdentity owner es → ForwardAgrees st →
    (∀ h u, redisGet st.userOf h = some u → u = owner h) →
    ForwardAgrees (runPresence es st)
  | [], _, _, h1, _ => h1
  | e :: es, st, hs, h1, h2 => by
    have hstep := applyPresence_agrees owner e st
      (fun h u he hu => hs h u (he ▸ List.mem_cons_self _ _) hu) h1 h2
    exact runPresence_agrees owner es (applyPresence e st)
      (fun h u hm hu => hs h u (List.mem_cons_of_mem _ hm) hu) hstep.1 hstep.2

/-- C26, counterexample: the socket `s1` joins under `userA` and then under `userB`, both
joins resolving.  The forward entry of `userA` is still `s1`, but the inverse entry of
`s1` is `userB`: the two maps do not agree. -/
theorem rejoin_breaks_agreement :
    redisGet (runPresence [.join "s1" (some userA), .join "s1" (some userB)]
        emptyState).socketOf userA = some "s1"
    ∧ redisGet (runPresence [.join "s1" (some userA), .join "s1" (some userB)]
        emptyState).userOf "s1" = some userB
    ∧ ¬ ForwardAgrees (runPresence [.join "s1" (some userA), .join "s1" (some userB)]
        emptyState) := by
  refine ⟨by decide, by decide, ?_⟩
  intro h
  have h' := h userA "s1" (by decide)
  revert h'
  decide

/-- C26, amended: in every state reached from the empty directory by a sequence of joins
and disconnects whose Redis calls resolve and in which no socket joins under two different
user ids, the maps agree: whenever the forward entry of a user `u` is the socket `h`, the
inverse entry of `h` is `u`. -/
theorem presence_maps_agree (owner : String → String) (es : List PresenceEvent)
    (hsingle : SingleIdentity owner es) : ForwardAgrees (runPresence es emptyState) :=
  runPresence_agrees owner es emptyState hsingle
    (fun u h hf => by simp [emptyState, redisGet] at hf)
    (fun h u hf => by simp [emptyState, redisGet] at hf)

theorem presence_maps_agree_witness :
    ForwardAgrees (runPresence [.join "s1" (some userA), .join "s2" (some userA),
      .disconnect "s1", .join "s3" (some userB)] emptyState) :=
  presence_maps_agree (fun h => if h = "s3" then userB else userA)
    [.join "s1" (some userA), .join "s2" (some userA), .disconnect "s1",
      .join "s3" (some userB)]
    (by
      intro h u hm _
      simp only [List.mem_cons, PresenceEvent.join.injEq, Option.some.injEq,
        List.mem_singleton, reduceCtorEq, false_or, or_false, List.not_mem_nil] at hm
      rcases hm with ⟨rfl, rfl⟩ | ⟨rfl, rfl⟩ | ⟨rfl, rfl⟩ <;> decide)

/-- C27: a join whose user id is missing or empty records nothing: whatever the Redis calls
would do, the handler leaves the entire state as it was, so the forward and the inverse
map are unchanged and a socket without inverse entry stays without one. -/
theorem join_without_user_id (env : JoinEnv) (h : String) (userId : Option String)
    (st : State) (hfalsy : userId = none ∨ userId = some "") :
    join env h userId st = (st, .resolved)
    ∧ (join env h userId st).1.socketOf = st.socketOf
    ∧ (join env h userId st).1.userOf = st.userOf
    ∧ (redisGet st.userOf h = none → redisGet (join env h userId st).1.userOf h = none) := by
  have ht : truthy userId = false := by
    rcases hfalsy with rfl | rfl <;> rfl
  rw [join_falsy env h userId st ht]
  exact ⟨rfl, rfl, rfl, fun hb => hb⟩

theorem join_without_user_id_witness :
    join joinOk "sockA" (some "") boundState = (boundState, .resolved)
    ∧ (join joinOk "sockA" (some "") boundState).1.socketOf = boundState.socketOf
    ∧ (join joinOk "sockA" (some "") boundState).1.userOf = boundState.userOf
    ∧ (redisGet boundState.userOf "sockA" = none →
        redisGet (join joinOk "sockA" (some "") boundState).1.userOf "sockA" = none) :=
  join_without_user_id joinOk "sockA" (some "") boundState (Or.inr rfl)

/-! ## The unread count after mark-read -/

theorem send_message_mem (f : PopulatedMessage → String) (env : SendEnv) (sid : String)
    (data : SendData) (st : State) (x : ChatMessage)
    (hx : x ∈ (send_message f env sid data st).1.messages) :
    x ∈ st.messages ∨ x.chatRoomId = chatRoomId x.senderId x.receiverId := by
  have h : (send_message f env sid data st).1.messages = st.messages
      ∨ ∃ t v s r m, (send_message f env sid data st).1.messages
          = st.messages ++ [newChatMessage t v s r m] := by
    unfold send_message
    cases env.save <;> cases env.populate <;> cases env.get <;> cases env.lpush <;>
      cases env.expire <;>
      cases truthy data.senderId <;> cases truthy data.receiverId <;>
      cases truthy data.message <;> simp <;> exact ⟨_, _, _, _, _, rfl⟩
  rcases h with h | ⟨t, v, s, r, m, h⟩
  · rw [h] at hx
    exact Or.inl hx
  · rw [h, List.mem_append, List.mem_singleton] at hx
    rcases hx with hx | rfl
    · exact Or.inl hx
    · exact Or.inr rfl

theorem markRead_mem (now : Nat) (st : State) (a b : String) (x : ChatMessage)
    (hx : x ∈ (markRead now st a b).messages) :
    ∃ y ∈ st.messages, x.senderId = y.senderId ∧ x.receiverId = y.receiverId
      ∧ x.chatRoomId = y.chatRoomId
      ∧ (y.chatRoomId = chatRoomId a b → y.receiverId = a → x.read = true) := by
  simp only [markRead, List.mem_map] at hx
  obtain ⟨y, hy, hxy⟩ := hx
  refine ⟨y, hy, ?_⟩
  by_cases hc : (y.chatRoomId == chatRoomId a b && y.receiverId == a && y.read == false) = true
  · rw [if_pos hc] at hxy
    subst hxy
    exact ⟨rfl, rfl, rfl, fun _ _ => rfl⟩
  · rw [if_neg hc] at hxy
    subst hxy
    refine ⟨rfl, rfl, rfl, fun h1 h2 => ?_⟩
    cases hread : y.read
    · simp [h1, h2, hread] at hc
    · rfl

theorem step_stored_by_send (op : Op) (st : State)
    (h : ∀ m ∈ st.messages, m.chatRoomId = chatRoomId m.senderId m.receiverId) :
    ∀ m ∈ (step op st).messages, m.chatRoomId = chatRoomId m.senderId m.receiverId := by
  cases op with
  | join env sid u => simpa [step, join_messages] using h
  | send_message f env sid payload =>
    cases payload with
    | none => simpa [step, on_send_message] using h
    | some data =>
      intro m hm
      rcases send_message_mem f env sid data st m (by simpa [step, on_send_message] using hm)
        with hm' | hm'
      · exact h m hm'
      · exact hm'
  | typing getOk payload => simpa [step, typing_state] using h
  | disconnect env sid => simpa [step, disconnect_messages] using h
  | getMessages ok a b => simpa [step] using h
  | putMessagesRead ok now a b =>
    cases ok
    · simpa [step, putMessagesRead] using h
    · intro m hm
      obtain ⟨y, hy, e1, e2, e3, _⟩ := markRead_mem now st a b m
        (by simpa [step, putMessagesRead] using hm)
      rw [e1, e2, e3]
      exact h y hy

theorem run_stored_by_send : ∀ (ops : List Op) (st : State),
    (∀ m ∈ st.messages, m.chatRoomId = chatRoomId m.senderId m.receiverId) →
    ∀ m ∈ (run ops st).messages, m.chatRoomId = chatRoomId m.senderId m.receiverId
  | [], _, h => h
  | op :: ops, st, h => run_stored_by_send ops (step op st) (step_stored_by_send op st h)

/-- C28: in a state reached from the empty one by any sequence of operations, with user ids
that hold no underscore, after the mark-read route succeeded for `(a, b)`, at any time, the
unread count the client computes for `a` from what the fetch route returns for `(a, b)`,
the number of returned messages with `read = false` whose sender is not `a`, is zero. -/
theorem unread_zero_after_mark_read (ops : List Op) (a b : String) (now : Nat)
    (ha : noUnderscore a) (hb : noUnderscore b)
    (hids : ∀ m ∈ (run ops emptyState).messages,
      noUnderscore m.senderId ∧ noUnderscore m.receiverId) :
    (putMessagesRead true now (run ops emptyState) a b).2 = 200
    ∧ unreadCount a
        (findMessages (putMessagesRead true now (run ops emptyState) a b).1 a b) = 0 := by
  refine ⟨rfl, ?_⟩
  have hwf := run_stored_by_send ops emptyState (by simp [emptyState])
  simp only [unreadCount, putMessagesRead, if_true, List.length_eq_zero,
    List.filter_eq_nil_iff]
  intro x hx
  obtain ⟨hmem, hroom⟩ := mem_findMessages hx
  obtain ⟨y, hy, e1, e2, e3, hread⟩ := markRead_mem now _ a b x hmem
  have hy' := hwf y hy
  obtain ⟨hs, hr⟩ := hids y hy
  rw [e3] at hroom
  have hpair := chatRoomId_inj y.senderId y.receiverId a b hs hr ha hb (hy'.symm.trans hroom)
  rcases hpair with ⟨h1, _⟩ | ⟨_, h2⟩
  · simp [e1, h1]
  · simp [hread hroom h2]

theorem unread_zero_after_mark_read_witness :
    (putMessagesRead true 2000 (run twoSends emptyState) userA userB).2 = 200
    ∧ unreadCount userA
        (findMessages (putMessagesRead true 2000 (run twoSends emptyState) userA userB).1
          userA userB) = 0 :=
  unread_zero_after_mark_read twoSends userA userB 2000 (by decide) (by decide) (by decide)

/-! ## The auth routes -/

/-- C29: for a sign-in request with a password and an email or a mobile whose lookup
resolves, the answer when no user matches and the answer when a user matches and the
password is wrong are the same answer, status 401 with the same body; and when an email is
supplied the lookup is by the lower-cased email alone: the mobile of the request does not
enter the lookup nor the answer. -/
theorem signin_hides_existence (toLowerCase : String → String)
    (cp₁ cp₂ : User → String → Option Bool) (toJSON : User → String)
    (users₁ users₂ : List User) (body : SigninBody) (u : User)
    (hpw : truthy body.password = true)
    (hid : truthy body.email = true ∨ truthy body.mobile = true)
    (hnone : signinFind toLowerCase users₁ body = none)
    (hsome : signinFind toLowerCase users₂ body = some u)
    (hwrong : cp₂ u (body.password.getD "") = some false) :
    signin toLowerCase true cp₁ toJSON users₁ body
        = signin toLowerCase true cp₂ toJSON users₂ body
    ∧ signin toLowerCase true cp₁ toJSON users₁ body
        = ⟨401, false, "Invalid credentials. Please check your email/mobile and password.",
            none⟩
    ∧ (truthy body.email = true → ∀ mobile' : Option String,
        signinFind toLowerCase users₂ { body with mobile := mobile' }
            = users₂.find? (fun v => v.email == some (toLowerCase (body.email.getD "")))
        ∧ signin toLowerCase true cp₂ toJSON users₂ { body with mobile := mobile' }
            = signin toLowerCase true cp₂ toJSON users₂ body) := by
  have hguard : (!truthy body.password || (!truthy body.email && !truthy body.mobile)) = false := by
    rcases hid with h | h <;> simp [hpw, h]
  have h1 : signin toLowerCase true cp₁ toJSON users₁ body = invalidCredentials := by
    simp [signin, hguard, hnone]
  have h2 : signin toLowerCase true cp₂ toJSON users₂ body = invalidCredentials := by
    simp [signin, hguard, hsome, hwrong]
  refine ⟨h1.trans h2.symm, h1, ?_⟩
  intro he mobile'
  have hf : signinFind toLowerCase users₂ { body with mobile := mobile' }
      = users₂.find? (fun v => v.email == some (toLowerCase (body.email.getD ""))) := by
    simp [signinFind, he]
  have hf' : signinFind toLowerCase users₂ body
      = users₂.find? (fun v => v.email == some (toLowerCase (body.email.getD ""))) := by
    simp [signinFind, he]
  refine ⟨hf, ?_⟩
  simp only [signin, hf, hf', hpw, he]
  simp

theorem signin_hides_existence_witness :
    signin lowerAscii true plainCompare nameOf []
          ⟨some "ASHA@example.org", some "9000000001", some "bad"⟩
        = signin lowerAscii true plainCompare nameOf oneUser
          ⟨some "ASHA@example.org", some "9000000001", some "bad"⟩
    ∧ signin lowerAscii true plainCompare nameOf []
          ⟨some "ASHA@example.org", some "9000000001", some "bad"⟩
        = ⟨401, false, "Invalid credentials. Please check your email/mobile and password.",
            none⟩
    ∧ (truthy (some "ASHA@example.org") = true → ∀ mobile' : Option String,
        signinFind lowerAscii oneUser
            { (⟨some "ASHA@example.org", some "9000000001", some "bad"⟩ : SigninBody) with
              mobile := mobile' }
            = oneUser.find? (fun v => v.email == some (lowerAscii "ASHA@example.org"))
        ∧ signin lowerAscii true plainCompare nameOf oneUser
            { (⟨some "ASHA@example.org", some "9000000001", some "bad"⟩ : SigninBody) with
              mobile := mobile' }
            = signin lowerAscii true plainCompare nameOf oneUser
              ⟨some "ASHA@example.org", some "9000000001", some "bad"⟩) :=
  signin_hides_existence lowerAscii plainCompare plainCompare nameOf [] oneUser
    ⟨some "ASHA@example.org", some "9000000001", some "bad"⟩
    ⟨"Asha", some "asha@example.org", "9000000001", "secret", "Asha Worker"⟩
    (by decide) (Or.inl (by decide)) (by decide) (by decide) (by decide)

theorem signupMatches_eq_false (toLowerCase : String → String) (body : SignupBody) (u : User) :
    signupMatches toLowerCase body u = false ↔
      (u.mobile ≠ body.mobile.getD ""
        ∧ (truthy body.email = true → u.email ≠ some (toLowerCase (body.email.getD "")))) := by
  unfold signupMatches
  cases truthy body.email <;> simp

theorem signupAllowed_iff (toLowerCase : String → String) (users : List User)
    (body : SignupBody) :
    SignupAllowed toLowerCase users body ↔
      ((truthy body.name = true ∧ truthy body.mobile = true ∧ truthy body.password = true
          ∧ truthy body.role = true)
        ∧ (users.find? (signupMatches toLowerCase body)).isSome = false
        ∧ validRoles.contains (body.role.getD "") = true) := by
  unfold SignupAllowed
  have hfind : (users.find? (signupMatches toLowerCase body)).isSome = false
      ↔ ∀ u ∈ users, u.mobile ≠ body.mobile.getD ""
        ∧ (truthy body.email = true → u.email ≠ some (toLowerCase (body.email.getD ""))) := by
    constructor
    · intro h u hu
      have hn : users.find? (signupMatches toLowerCase body) = none := by
        cases hf : users.find? (signupMatches toLowerCase body) with
        | none => rfl
        | some v => simp [hf] at h
      exact (signupMatches_eq_false toLowerCase body u).1
        (by simpa using (List.find?_eq_none.1 hn) u hu)
    · intro h
      have hn : users.find? (signupMatches toLowerCase body) = none :=
        List.find?_eq_none.2 (fun u hu => by
          simpa using (signupMatches_eq_false toLowerCase body u).2 (h u hu))
      rw [hn]
      rfl
  have hrole : validRoles.contains (body.role.getD "") = true
      ↔ body.role.getD "" ∈ ["Patient", "Asha Worker", "PHC Doctor"] := by
    simp [validRoles]
  rw [hfind, hrole]

/-- C30: the sign-up route adds a user only if name, mobile, password and role are all
non-empty, no existing user has the same mobile or the lower-cased email, and the role is
one of `Patient`, `Asha Worker`, `PHC Doctor`; it then answers 201 and adds exactly one
user.  In every other case no user is added, and the answer is 400 (for the two checks
that follow the lookup of existing users: when that lookup resolves). -/
theorem signup_guards (toLowerCase : String → String) (findOk : Bool)
    (save : User → Option User) (toJSON : User → String) (users : List User)
    (body : SignupBody) :
    ((signup toLowerCase findOk save toJSON users body).1 ≠ users →
        SignupAllowed toLowerCase users body
        ∧ (signup toLowerCase findOk save toJSON users body).2.status = 201
        ∧ ∃ stored, (signup toLowerCase findOk save toJSON users body).1 = users ++ [stored])
    ∧ (¬ SignupAllowed toLowerCase users body →
        (signup toLowerCase findOk save toJSON users body).1 = users
        ∧ (findOk = true →
            (signup toLowerCase findOk save toJSON users body).2.status = 400)
        ∧ (¬ (truthy body.name = true ∧ truthy body.mobile = true
              ∧ truthy body.password = true ∧ truthy body.role = true) →
            (signup toLowerCase findOk save toJSON users body).2.status = 400)) := by
  rw [signupAllowed_iff]
  unfold signup
  cases truthy body.name <;> cases truthy body.mobile <;> cases truthy body.password <;>
    cases truthy body.role <;> cases findOk <;>
    cases (users.find? (signupMatches toLowerCase body)).isSome <;>
    cases validRoles.contains (body.role.getD "")
  all_goals simp
  all_goals (split <;> simp)

end ArogyaLink
